import Mathlib

/-!
Verification of the HHR hospital-ward census application against its
natural-language specification.

The development shallowly embeds the program's core logic:

* `src/utils/optimisticUpdates.ts` — `performOptimisticUpdate` and the
  `useOptimisticState` hook.  Asynchronous persistence functions are
  represented by their awaited outcome (`Except ε Unit`); the callbacks
  fired by the utility are represented by an ordered event trace.
* the last-write-wins conflict rule sketched in the Data Sync tests.
* the CUDYR aggregation expressions from the scoring tests.
* the discharge-undo flow (the hook body is absent from the sources; it is
  modelled from the spec and its test suite, see `undoDischarge`).
* the copy-to-new-day logic and the bed structural invariants.
* the logger's bounded entry store as a state machine over its public API.
* the `send-census-email` serverless handler as a pure function of the
  request and of the outcomes of its two effectful calls.
* the `buildCensusMasterWorkbook` Excel layout generator, modelled as a
  function from daily records to a list of worksheet descriptions.
* the base64 decoding helper `decodeBase64` of `firebaseConfig.ts`,
  with binary strings modelled as lists of character codes.
-/

namespace HHR

/-! ## C1 — performOptimisticUpdate (src/utils/optimisticUpdates.ts, lines 59–94) -/

/-- The `optimisticState` option of `performOptimisticUpdate`: either a new
state value or a function of the current state (`T | ((current: T) => T)`). -/
inductive OptimisticStateArg (T : Type) where
  | value (s : T)
  | func (f : T → T)

/-- Result record `{ success, error? }` returned by `performOptimisticUpdate`. -/
structure OptimisticResult (ε : Type) where
  success : Bool
  error : Option ε
deriving Repr, DecidableEq

/-- Observable actions of `performOptimisticUpdate`, recorded in the order the
source performs them: the `onOptimisticUpdate` callback, the awaited
`updateFn`, the optional `onSuccess` callback, the `onError` callback (with the
error and the previous state the source passes for rollback). -/
inductive OptEvent (T ε : Type) where
  | onOptimisticUpdate (newState : T)
  | updateFn
  | onSuccess
  | onError (e : ε) (previousState : T)
deriving DecidableEq

/-- Computation of the optimistic state: the source applies `optimisticState`
to `currentState` when it is a function, and uses it directly otherwise. -/
def computeOptimistic {T : Type} (currentState : T) : OptimisticStateArg T → T
  | .value s => s
  | .func f => f currentState

/-- Shallow embedding of `performOptimisticUpdate`.  The async `updateFn` is
represented by its awaited outcome `updateOutcome`; `hasOnSuccess` records
whether the optional `onSuccess` callback was provided.  The function returns
the `OptimisticResult` together with the ordered trace of events. -/
def performOptimisticUpdate {T ε : Type} (currentState : T)
    (optimisticState : OptimisticStateArg T) (updateOutcome : Except ε Unit)
    (hasOnSuccess : Bool) : OptimisticResult ε × List (OptEvent T ε) :=
  let newState := computeOptimistic currentState optimisticState
  match updateOutcome with
  | .ok _ =>
      (⟨true, none⟩,
        [.onOptimisticUpdate newState, .updateFn]
          ++ (if hasOnSuccess then [.onSuccess] else []))
  | .error e =>
      (⟨false, some e⟩,
        [.onOptimisticUpdate newState, .updateFn, .onError e currentState])

/-- Detector for rollback events in a trace. -/
def OptEvent.isError {T ε : Type} : OptEvent T ε → Bool
  | .onError _ _ => true
  | _ => false

/-! ## C2 — last-write-wins sync conflict (src/unnamed/part_005, Data Sync tests) -/

/-- A synchronized census record as compared by the Data Sync logic: the
payload is opaque, `lastUpdated` is the comparable write timestamp (the tests
compare `new Date(lastUpdated)` values). -/
structure SyncRecord (β : Type) where
  date : String
  beds : β
  lastUpdated : Nat
deriving Repr, DecidableEq

/-- The merge rule of the Data Sync tests (src/unnamed/part_005 lines 477–513):
`new Date(remote.lastUpdated) > new Date(local.lastUpdated) ? remote : local`.
The whole record with the later timestamp wins; ties keep the local copy. -/
def resolveConflict {β : Type} (localRec remoteRec : SyncRecord β) : SyncRecord β :=
  if localRec.lastUpdated < remoteRec.lastUpdated then remoteRec else localRec

/-! ## C6 — useOptimisticState.updateOptimistically (src/utils/optimisticUpdates.ts, lines 118–154) -/

/-- The React state managed by `useOptimisticState`: the `state` and
`isPending`/`error` state cells plus the `previousStateRef` ref. -/
structure HookState (T ε : Type) where
  state : T
  isPending : Bool
  error : Option ε
  previousStateRef : T
deriving Repr, DecidableEq

/-- Initial hook state (`useState(initialState)`, `useState(false)`,
`useState(null)`, `useRef(initialState)`). -/
def initialHookState {T ε : Type} (initialState : T) : HookState T ε :=
  ⟨initialState, false, none, initialState⟩

/-- The synchronous prefix of `updateOptimistically` — everything the source
executes before `await persistFn(newState)`: it stores the previous state in
the ref, computes and applies the optimistic state, sets `isPending := true`,
clears `error`, and starts the persistence write.  The second component is the
argument of the `persistFn` call that was started (`some newState`: the source
calls `persistFn` unconditionally, with no guard on `isPending`). -/
def updateOptimisticallyStart {T ε : Type} (h : HookState T ε)
    (updater : OptimisticStateArg T) : HookState T ε × Option T :=
  let newState := computeOptimistic h.state updater
  (⟨newState, true, none, h.state⟩, some newState)

/-- The continuation of `updateOptimistically` after `persistFn` settles:
on resolution it clears `isPending` and returns `true`; on rejection it rolls
back to `previousStateRef`, records the error, clears `isPending`, and
returns `false`. -/
def updateOptimisticallyFinish {T ε : Type} (h : HookState T ε)
    (outcome : Except ε Unit) : HookState T ε × Bool :=
  match outcome with
  | .ok _ => (⟨h.state, false, h.error, h.previousStateRef⟩, true)
  | .error e => (⟨h.previousStateRef, false, some e, h.previousStateRef⟩, false)

/-! ## C7 — CUDYR category aggregation (src/tests/integration/cudyrScoring.test.ts) -/

/-- The five boolean CUDYR categories (Contagio, UPP/Caída, Dependencia,
Yatrogenia, Riesgo). -/
structure CUDYRScore where
  C : Bool
  U : Bool
  D : Bool
  Y : Bool
  R : Bool
deriving Repr, DecidableEq

/-- A patient as used by the CUDYR statistics tests: a possibly missing
score sheet. -/
structure CudyrPatient where
  patientName : String
  cudyr : Option CUDYRScore
deriving Repr, DecidableEq

/-- Number of marked categories of one patient:
`Object.values(p.cudyr || {}).filter(Boolean).length`. -/
def markedCount : Option CUDYRScore → Nat
  | none => 0
  | some s =>
      (if s.C then 1 else 0) + (if s.U then 1 else 0) + (if s.D then 1 else 0)
        + (if s.Y then 1 else 0) + (if s.R then 1 else 0)

/-- Total marked categories over a patient list:
`patients.reduce((sum, p) => sum + Object.values(p.cudyr || {}).filter(Boolean).length, 0)`. -/
def totalCategories (patients : List CudyrPatient) : Nat :=
  patients.foldl (fun sum p => sum + markedCount p.cudyr) 0

/-- Optional-chasing category read `p.cudyr?.X` (false when absent). -/
def readsC (p : CudyrPatient) : Bool := (p.cudyr.map CUDYRScore.C).getD false
def readsU (p : CudyrPatient) : Bool := (p.cudyr.map CUDYRScore.U).getD false
def readsD (p : CudyrPatient) : Bool := (p.cudyr.map CUDYRScore.D).getD false
def readsY (p : CudyrPatient) : Bool := (p.cudyr.map CUDYRScore.Y).getD false
def readsR (p : CudyrPatient) : Bool := (p.cudyr.map CUDYRScore.R).getD false

/-- Per-category frequency `patients.filter(p => p.cudyr?.C).length` and its
four siblings. -/
def countC (patients : List CudyrPatient) : Nat := (patients.filter readsC).length
def countU (patients : List CudyrPatient) : Nat := (patients.filter readsU).length
def countD (patients : List CudyrPatient) : Nat := (patients.filter readsD).length
def countY (patients : List CudyrPatient) : Nat := (patients.filter readsY).length
def countR (patients : List CudyrPatient) : Nat := (patients.filter readsR).length

/-! ## Domain data model (src/types, as used by the tests and exporters)

Daily records, beds, patients and movement entries are plain nested records
with optional fields; optional strings are modelled by `""` defaults (the
falsy value the sources test with `||` and `&&`), optional objects by
`Option`.  A clinical crib is a nested patient record; the sources never read
a crib's own crib, so crib records carry only the scalar fields. -/

/-- Nested clinical-crib patient record (a full patient record in the
sources; only the nested `clinicalCrib` field itself is absent, since cribs
are never nested further). -/
structure CribData where
  bedId : String := ""
  patientName : String := ""
  rut : String := ""
  age : String := ""
  pathology : String := ""
  specialty : String := ""
  status : String := ""
  origin : String := ""
  insurance : String := ""
  admissionDate : String := ""
  location : String := ""
  bedMode : String := "Cama"
  hasCompanionCrib : Bool := false
  isBlocked : Bool := false
  blockedReason : String := ""
  hasWristband : Bool := false
  isBedridden : Bool := false
  surgicalComplication : Bool := false
  isUPC : Bool := false
  isRapanui : Bool := false
  devices : List String := []
deriving Repr, DecidableEq

/-- A bed's state, carried as a patient record (an empty `patientName` means
the bed has no occupant). -/
structure PatientData where
  bedId : String := ""
  patientName : String := ""
  rut : String := ""
  age : String := ""
  pathology : String := ""
  specialty : String := ""
  status : String := ""
  origin : String := ""
  insurance : String := ""
  admissionDate : String := ""
  location : String := ""
  bedMode : String := "Cama"
  hasCompanionCrib : Bool := false
  isBlocked : Bool := false
  blockedReason : String := ""
  hasWristband : Bool := false
  isBedridden : Bool := false
  surgicalComplication : Bool := false
  isUPC : Bool := false
  isRapanui : Bool := false
  devices : List String := []
  cudyr : Option CUDYRScore := none
  clinicalCrib : Option CribData := none
deriving Repr, DecidableEq

/-- A discharge entry, holding an `originalData` snapshot of the patient for
undo. -/
structure DischargeData where
  id : String
  bedId : String := ""
  bedName : String := ""
  bedType : String := ""
  patientName : String := ""
  rut : String := ""
  age : String := ""
  diagnosis : String := ""
  pathology : String := ""
  specialty : String := ""
  destination : String := ""
  dischargeType : String := ""
  insurance : String := ""
  origin : String := ""
  status : String := ""
  time : String := ""
  isNested : Bool := false
  originalData : Option PatientData := none
deriving Repr, DecidableEq

/-- A transfer entry. -/
structure TransferData where
  id : String
  bedId : String := ""
  bedName : String := ""
  bedType : String := ""
  patientName : String := ""
  rut : String := ""
  age : String := ""
  diagnosis : String := ""
  pathology : String := ""
  specialty : String := ""
  destination : String := ""
  receivingCenter : String := ""
  evacuationMethod : String := ""
  insurance : String := ""
  origin : String := ""
  status : String := ""
  time : String := ""
  isNested : Bool := false
  originalData : Option PatientData := none
deriving Repr, DecidableEq

/-- A day-surgery (CMA) entry. -/
structure CMAData where
  id : String
  bedName : String := ""
  patientName : String := ""
  rut : String := ""
  age : String := ""
  diagnosis : String := ""
  pathology : String := ""
  specialty : String := ""
  status : String := ""
  interventionType : String := ""
  service : String := ""
deriving Repr, DecidableEq

/-- A daily census record.  The `beds` object is modelled as an association
list from bed id to bed state. -/
structure DailyRecord where
  date : String
  beds : List (String × PatientData)
  discharges : List DischargeData := []
  transfers : List TransferData := []
  cma : List CMAData := []
  lastUpdated : String := ""
  nurses : List String := []
  nursesNightShift : List String := []
  activeExtraBeds : List String := []
deriving Repr, DecidableEq

/-- Read `record.beds[bedId]`. -/
def lookupBed (beds : List (String × PatientData)) (bedId : String) :
    Option PatientData :=
  (beds.find? (fun b => b.1 == bedId)).map Prod.snd

/-- Write `record.beds[bedId] = p` for a key already present (all bed
operations in the sources write to existing bed keys). -/
def setBed (beds : List (String × PatientData)) (bedId : String)
    (p : PatientData) : List (String × PatientData) :=
  beds.map (fun b => if b.1 == bedId then (b.1, p) else b)

/-! ## C3 — undo discharge (src/tests/hooks/undoOperations.test.ts, src/unnamed/part_005) -/

/-- Modelled from the spec: the body of `usePatientDischarges.undoDischarge`
is missing from the sources — only its test suites are present
(src/tests/hooks/undoOperations.test.ts and the integration sketch in
src/unnamed/part_005 lines 137–164).  Per the spec, "undoing a discharge
restores the original patient record and removes the discharge entry"; per
the tests, the undo is refused (an alert is shown and nothing is saved) when
the bed is already occupied.  `none` models the refused undo. -/
def undoDischarge (record : DailyRecord) (dischargeId : String) :
    Option DailyRecord :=
  match record.discharges.find? (fun d => d.id == dischargeId) with
  | none => none
  | some d =>
    match d.originalData with
    | none => none
    | some original =>
      match lookupBed record.beds d.bedId with
      | none => none
      | some bedP =>
        if bedP.patientName = "" then
          some { record with
                   beds := setBed record.beds d.bedId original,
                   discharges :=
                     record.discharges.filter (fun d2 => !(d2.id == dischargeId)) }
        else none

/-! ## C4 — bed structural invariants (src/services/utils/loggerService.ts buildCensusRows,
src/services/exporters/censusMasterWorkbook.ts addCensusTable, src/unnamed/part_007) -/

/-- Occupancy as derived throughout the exporters:
`p.patientName && p.patientName.trim() !== ''`. -/
def isOccupied (p : PatientData) : Bool := p.patientName.trim != ""

/-- The two structural invariants exactly as the spec words them: a bed is
occupied exactly when its patient-name field is non-empty, and a blocked bed
has no occupant (its patient-name field is empty). -/
def bedInvariantClaimed (p : PatientData) : Prop :=
  (isOccupied p = true ↔ p.patientName ≠ "")
    ∧ (p.isBlocked = true → p.patientName = "")

/-- The invariants as the code realizes them: occupancy coincides with a
patient-name field that is non-empty after trimming whitespace, and a blocked
bed has an empty patient-name field. -/
def bedInvariantDerived (p : PatientData) : Prop :=
  (isOccupied p = true ↔ p.patientName.trim ≠ "")
    ∧ (p.isBlocked = true → p.patientName = "")

instance (p : PatientData) : Decidable (bedInvariantClaimed p) := by
  unfold bedInvariantClaimed; infer_instance

instance (p : PatientData) : Decidable (bedInvariantDerived p) := by
  unfold bedInvariantDerived; infer_instance

/-- Carry one bed into the next day's record (src/unnamed/part_007, the copy
logic of `DailyRecordRepository`): occupied or blocked beds are deep-copied
with the CUDYR sheet reset; other beds become fresh empty beds. -/
def copyBedForNewDay (bedId : String) (prevPatient : PatientData) : PatientData :=
  if prevPatient.patientName ≠ "" ∨ prevPatient.isBlocked = true then
    { prevPatient with cudyr := none }
  else
    { bedId := bedId,
      patientName := "",
      bedMode := if prevPatient.bedMode ≠ "" then prevPatient.bedMode else "Cama",
      hasCompanionCrib := prevPatient.hasCompanionCrib,
      isBlocked := false }

/-- Shallow embedding of `copyPatientsFromPrevious` (src/unnamed/part_007):
the new day keeps the bed layout, starts all movement lists empty and copies
the active extra beds. -/
def copyPatientsFromPrevious (prevRecord : DailyRecord) (newDate : String) :
    DailyRecord :=
  { date := newDate,
    beds := prevRecord.beds.map (fun b => (b.1, copyBedForNewDay b.1 b.2)),
    discharges := [],
    transfers := [],
    cma := [],
    activeExtraBeds := prevRecord.activeExtraBeds }

/-- A previous-day record holding a bed that is blocked and occupied at once —
representable in the data model and carried forward by the system. -/
def blockedOccupiedRecord : DailyRecord :=
  { date := "2024-12-22",
    beds := [("bed-1", { bedId := "bed-1", patientName := "Juan", isBlocked := true })] }

/-! ## C9 — LoggerService entry store (src/services/utils/loggerService.ts, lines 46–237) -/

/-- Log levels (`'debug' | 'info' | 'warn' | 'error' | 'none'`). -/
inductive LogLevel where
  | debug
  | info
  | warn
  | error
  | none
deriving Repr, DecidableEq

/-- `LEVEL_PRIORITY`. -/
def levelPriority : LogLevel → Nat
  | .debug => 0
  | .info => 1
  | .warn => 2
  | .error => 3
  | .none => 4

/-- A stored log entry (the opaque `data` payload is omitted). -/
structure LogEntry where
  timestamp : String
  level : LogLevel
  message : String
  context : Option String := Option.none
deriving Repr, DecidableEq

/-- `LoggerConfig`. -/
structure LoggerConfig where
  minLevel : LogLevel
  enableTimestamps : Bool
  enableContext : Bool
  maxStoredEntries : Nat
deriving Repr, DecidableEq

/-- The logger singleton's mutable state. -/
structure LoggerState where
  config : LoggerConfig
  entries : List LogEntry
deriving Repr, DecidableEq

/-- The private constructor: `minLevel` depends on the dev environment, the
entry bound defaults to 100, the entry list starts empty. -/
def initialLogger (isDev : Bool) : LoggerState :=
  { config := { minLevel := if isDev then .debug else .warn,
                enableTimestamps := true,
                enableContext := true,
                maxStoredEntries := 100 },
    entries := [] }

/-- `shouldLog`: `LEVEL_PRIORITY[level] >= LEVEL_PRIORITY[this.config.minLevel]`. -/
def shouldLog (s : LoggerState) (level : LogLevel) : Bool :=
  levelPriority s.config.minLevel ≤ levelPriority level

/-- `storeEntry`: push the entry, then `shift()` (drop the first entry) when
the list length exceeds `maxStoredEntries`. -/
def storeEntry (s : LoggerState) (entry : LogEntry) : LoggerState :=
  let pushed := s.entries ++ [entry]
  { s with
      entries := if s.config.maxStoredEntries < pushed.length then pushed.tail else pushed }

/-- The private `log` method: store the entry only when `shouldLog` passes
(the `new Date().toISOString()` timestamp is passed in as an argument). -/
def logMethod (s : LoggerState) (level : LogLevel) (message : String)
    (context : Option String) (timestamp : String) : LoggerState :=
  if shouldLog s level then
    storeEntry s { timestamp := timestamp, level := level,
                   message := message, context := context }
  else s

/-- The public operations of the logger that touch its state: the four level
methods funnel into `log`; `configure` may replace `maxStoredEntries` (the
partial-config case relevant to the entry bound); `setLevel` replaces
`minLevel`; `clearEntries` empties the store. -/
inductive LoggerOp where
  | log (level : LogLevel) (message : String) (context : Option String)
      (timestamp : String)
  | configureMax (maxStoredEntries : Nat)
  | setLevel (level : LogLevel)
  | clearEntries
deriving Repr, DecidableEq

/-- One public operation applied to the logger state. -/
def applyOp (s : LoggerState) : LoggerOp → LoggerState
  | .log level message context timestamp => logMethod s level message context timestamp
  | .configureMax m => { s with config := { s.config with maxStoredEntries := m } }
  | .setLevel l => { s with config := { s.config with minLevel := l } }
  | .clearEntries => { s with entries := [] }

/-- The logger state reached from a fresh singleton by a call sequence. -/
def runOps (isDev : Bool) (ops : List LoggerOp) : LoggerState :=
  ops.foldl applyOp (initialLogger isDev)

/-- `getEntries` returns `[...this.entries]`: a fresh array holding the same
entries.  In the pure embedding only the value is observable; the copy equals
the stored list. -/
def getEntries (s : LoggerState) : List LogEntry := s.entries

/-! ## C5 — send-census-email handler (src/netlify/functions/send-census-email.ts) -/

/-- Parse status of the request body, the three cases `parseJsonBody`
distinguishes: no body, unparseable JSON, or a parsed payload. -/
inductive BodyInput (π : Type) where
  | missing
  | malformed
  | parsed (payload : π)
deriving Repr, DecidableEq

/-- The JSON-level census record as `validateRecord` checks it: `date` must be
truthy (non-empty) and `beds` a non-empty map.  (A `beds` value that is not an
object cannot arise in the typed embedding.) -/
structure RecordJson where
  date : String := ""
  beds : List (String × PatientData) := []
deriving Repr, DecidableEq

/-- The POST payload `{date, record, recipients, nursesSignature, body}`. -/
structure CensusPayload where
  date : String := ""
  record : Option RecordJson := Option.none
  recipients : List String := []
  nursesSignature : String := ""
  body : String := ""
deriving Repr, DecidableEq

/-- The parts of the serverless event the handler reads: the HTTP method and
the `x-user-role` / `x-user-email` headers, plus the body. -/
structure HandlerEvent where
  httpMethod : String
  userRole : Option String := Option.none
  userEmail : Option String := Option.none
  body : BodyInput CensusPayload := BodyInput.missing
deriving Repr, DecidableEq

/-- `ALLOWED_ROLES`. -/
def ALLOWED_ROLES : List String := ["nurse_hospital", "admin"]

/-- The role guard `!requesterRole || !ALLOWED_ROLES.includes(requesterRole)`,
phrased positively (an absent or empty header is not in the list either way). -/
def roleAllowed (role : Option String) : Bool :=
  match role with
  | Option.none => false
  | some r => ALLOWED_ROLES.contains r

/-- `validateRecord`, returning the thrown message on failure — the catch
block classifies errors by their message prefix. -/
def validateRecord (record : Option RecordJson) : Except String Unit :=
  match record with
  | Option.none => .error "Solicitud inválida: falta el registro de censo."
  | some r =>
      if r.date = "" then
        .error "Solicitud inválida: el registro no contiene la fecha."
      else if r.beds.length = 0 then
        .error "Solicitud inválida: el registro no contiene camas ni pacientes."
      else .ok ()

/-- Whether a request would pass body parsing and `validateRecord`. -/
def requestValid (body : BodyInput CensusPayload) : Bool :=
  match body with
  | .parsed payload =>
      match validateRecord payload.record with
      | .ok _ => true
      | .error _ => false
  | _ => false

/-- The Gmail API response, of which the handler uses `id`. -/
structure GmailResponse where
  id : String
deriving Repr, DecidableEq

/-- The HTTP response body: plain text or the success JSON
`{success, message, gmailId}`. -/
inductive ResponseBody where
  | text (message : String)
  | json (success : Bool) (message : String) (gmailId : String)
deriving Repr, DecidableEq

/-- The handler's observable outcome: the HTTP response plus whether
`sendCensusEmail` was invoked. -/
structure HandlerResult where
  statusCode : Nat
  body : ResponseBody
  emailAttempted : Bool
deriving Repr, DecidableEq

/-- JS `message.startsWith(prefix)`, evaluated on the character lists of the
two strings. -/
def strStartsWith (s pre : String) : Bool :=
  pre.toList.isPrefixOf s.toList

/-- The catch block's status classification: message prefixes `Solicitud
inválida` and `No autorizado` yield 400, everything else 500. -/
def classifyCaught (msg : String) : Nat :=
  if strStartsWith msg "Solicitud inválida" || strStartsWith msg "No autorizado"
  then 400 else 500

/-- The try block of the handler: body parsing, record validation, attachment
building, then the email relay.  The two awaited effects are represented by
their outcomes; the second component records whether `sendCensusEmail` was
reached. -/
def handlerTry (body : BodyInput CensusPayload) (buildOutcome : Except String Unit)
    (sendOutcome : Except String GmailResponse) :
    Except String GmailResponse × Bool :=
  match body with
  | .missing => (.error "Solicitud inválida: falta el cuerpo.", false)
  | .malformed => (.error "Solicitud inválida: el cuerpo no es un JSON válido.", false)
  | .parsed payload =>
    match validateRecord payload.record with
    | .error msg => (.error msg, false)
    | .ok _ =>
      match buildOutcome with
      | .error msg => (.error msg, false)
      | .ok _ => (sendOutcome, true)

/-- Shallow embedding of the serverless `handler`: the 405 method guard, the
403 role guard, then the try/catch around parsing, validation, attachment
building and the relay call. -/
def handler (event : HandlerEvent) (buildOutcome : Except String Unit)
    (sendOutcome : Except String GmailResponse) : HandlerResult :=
  if event.httpMethod ≠ "POST" then
    ⟨405, .text "Método no permitido", false⟩
  else if roleAllowed event.userRole = false then
    ⟨403, .text "No autorizado para enviar correos de censo.", false⟩
  else
    match handlerTry event.body buildOutcome sendOutcome with
    | (Except.ok resp, attempted) =>
        ⟨200, .json true "Correo enviado" resp.id, attempted⟩
    | (Except.error msg, attempted) =>
        ⟨classifyCaught msg, .text msg, attempted⟩

/-- A well-formed POST request from an allowed role carrying a valid record. -/
def validCensusEvent : HandlerEvent :=
  { httpMethod := "POST",
    userRole := some "nurse_hospital",
    body := BodyInput.parsed
      { record := some { date := "2024-12-23", beds := [("R1", {})] } } }

/-! ## C8 — buildCensusMasterWorkbook (src/services/exporters/censusMasterWorkbook.ts) -/

/-- A catalog bed (the module constant `BEDS` of src/constants, whose file is
not among the sources): the two fields `createDaySheet` reads.  The workbook
builder is parameterized by the catalog. -/
structure Bed where
  id : String
  type : String
deriving Repr, DecidableEq

/-- `CensusStatistics` as consumed by `addSummarySection`.  The calculator
(`statsCalculator.calculateStats`, not among the sources) is passed in as a
function; its figures flow into the summary cells unchanged. -/
structure CensusStatistics where
  occupiedBeds : Nat
  availableCapacity : Nat
  blockedBeds : Nat
  clinicalCribsCount : Nat
  companionCribs : Nat
  serviceCapacity : Nat
  totalHospitalized : Nat
deriving Repr, DecidableEq

/-- A worksheet cell value (ExcelJS stores strings and numbers here). -/
inductive Cell where
  | s (value : String)
  | n (value : Nat)
deriving Repr, DecidableEq

/-- The `? 'SI' : 'NO'` rendering of booleans. -/
def siNo (b : Bool) : String := if b then "SI" else "NO"

/-- JS `Array.prototype.join(sep)`. -/
def joinWith (sep : String) : List String → String
  | [] => ""
  | [x] => x
  | x :: xs => x ++ sep ++ joinWith sep xs

/-- View of a crib record as a patient record (the sources use one type for
both), mapping every field one to one. -/
def cribAsPatient (c : CribData) : PatientData :=
  { bedId := c.bedId, patientName := c.patientName, rut := c.rut, age := c.age,
    pathology := c.pathology, specialty := c.specialty, status := c.status,
    origin := c.origin, insurance := c.insurance,
    admissionDate := c.admissionDate, location := c.location,
    bedMode := c.bedMode, hasCompanionCrib := c.hasCompanionCrib,
    isBlocked := c.isBlocked, blockedReason := c.blockedReason,
    hasWristband := c.hasWristband, isBedridden := c.isBedridden,
    surgicalComplication := c.surgicalComplication, isUPC := c.isUPC,
    isRapanui := c.isRapanui, devices := c.devices,
    cudyr := Option.none, clinicalCrib := Option.none }

/-- One census data row (`addCensusRow`): the fifteen cell values, with the
admission date re-rendered through the date formatter when truthy (the
`new Date(...)` locale rendering is passed in as `fmtAdmission`), and the
bed-id cell overridden to `` `${bedId} (${location})` `` for a truthy
location override (clinical cribs). -/
def addCensusRow (fmtAdmission : String → String) (index : Nat)
    (bedId bedType : String) (p : PatientData) (locationOverride : String) :
    List Cell :=
  let baseRow : List Cell :=
    [Cell.n index, Cell.s bedId, Cell.s bedType, Cell.s p.patientName,
     Cell.s p.rut, Cell.s p.age, Cell.s p.pathology, Cell.s p.specialty,
     Cell.s (if p.admissionDate ≠ "" then fmtAdmission p.admissionDate
             else p.admissionDate),
     Cell.s p.status, Cell.s (siNo p.hasWristband),
     Cell.s (siNo p.surgicalComplication), Cell.s (siNo p.isUPC),
     Cell.s (siNo p.isBedridden), Cell.s (joinWith ", " p.devices)]
  if locationOverride ≠ "" then
    baseRow.set 1 (Cell.s (bedId ++ " (" ++ locationOverride ++ ")"))
  else baseRow

/-- The census table's data rows (`addCensusTable`): walk the bed catalog,
emitting a row for each bed that is occupied or blocked and a crib row for
each named clinical crib, with a running 1-based row index. -/
def censusTableRows (fmtAdmission : String → String) (record : DailyRecord) :
    List Bed → Nat → List (List Cell)
  | [], _ => []
  | bed :: rest, index =>
    match lookupBed record.beds bed.id with
    | Option.none => censusTableRows fmtAdmission record rest index
    | some p =>
      let hasData := p.patientName.trim != "" || p.isBlocked
      let hasCrib :=
        match p.clinicalCrib with
        | some crib => crib.patientName.trim != ""
        | Option.none => false
      let mainRows :=
        if hasData then [addCensusRow fmtAdmission index bed.id bed.type p ""]
        else []
      let idx1 := if hasData then index + 1 else index
      let cribRows :=
        match p.clinicalCrib with
        | some crib =>
            if crib.patientName.trim != "" then
              [addCensusRow fmtAdmission idx1 (bed.id ++ "-C") "Cuna"
                (cribAsPatient crib) p.location]
            else []
        | Option.none => []
      let idx2 := if hasCrib then idx1 + 1 else idx1
      mainRows ++ cribRows ++ censusTableRows fmtAdmission record rest idx2

/-- JS `date.split('-')` on the character list (`''.split('-')` is `['']`). -/
def splitDash : List Char → List (List Char)
  | [] => [[]]
  | c :: cs =>
      let rest := splitDash cs
      if c = '-' then [] :: rest
      else
        match rest with
        | r :: rs => (c :: r) :: rs
        | [] => [[c]]

/-- The worksheet name `` `${day}-${month}-${year}` `` built from
`record.date.split('-')` (a missing destructured part renders as JS
`undefined`). -/
def formatSheetName (date : String) : String :=
  let parts := (splitDash date.toList).map String.mk
  let year := parts.getD 0 "undefined"
  let month := parts.getD 1 "undefined"
  let day := parts.getD 2 "undefined"
  day ++ "-" ++ month ++ "-" ++ year

/-- A worksheet of the master census workbook: its name and the fixed
sections `createDaySheet` writes, in writing order — header lines, the
summary block, and the census, discharges, transfers and CMA tables with
their Spanish headers and data rows. -/
structure DaySheet where
  name : String
  title : String
  dateLine : String
  nursesLine : String
  summaryHeaders : List String
  summaryLabels : List String
  summaryValues : List Nat
  capacityLine : List String
  censusTitle : String
  censusHeaders : List String
  censusRows : List (List Cell)
  dischargesTitle : String
  dischargeHeaders : List String
  dischargeRows : List (List String)
  transfersTitle : String
  transferHeaders : List String
  transferRows : List (List String)
  cmaTitle : String
  cmaHeaders : List String
  cmaRows : List (List String)
deriving Repr, DecidableEq

/-- `createDaySheet`: one worksheet for one daily record. -/
def createDaySheet (BEDS : List Bed)
    (calcStats : List (String × PatientData) → CensusStatistics)
    (fmtAdmission : String → String) (record : DailyRecord) : DaySheet :=
  let stats := calcStats record.beds
  let discharges := record.discharges
  let nurses := record.nursesNightShift.filter (fun n => n.trim ≠ "")
  { name := formatSheetName record.date,
    title := "CENSO CAMAS DIARIO - HOSPITAL HANGA ROA",
    dateLine := "Fecha: " ++ formatSheetName record.date,
    nursesLine := "Enfermeras Turno Noche: "
      ++ (if nurses.length > 0 then joinWith ", " nurses else "Sin asignar"),
    summaryHeaders := ["CENSO CAMAS", "MOVIMIENTOS"],
    summaryLabels := ["Ocupadas", "Libres", "Bloqueadas", "Cunas",
                      "Altas", "Traslados", "Hosp. Diurna", "Fallecidos"],
    summaryValues := [stats.occupiedBeds, stats.availableCapacity,
                      stats.blockedBeds,
                      stats.clinicalCribsCount + stats.companionCribs,
                      (discharges.filter (fun d => d.status == "Vivo")).length,
                      record.transfers.length, record.cma.length,
                      (discharges.filter (fun d => d.status == "Fallecido")).length],
    capacityLine := ["Capacidad Servicio: " ++ toString stats.serviceCapacity,
                     "Disponibles: " ++ toString stats.availableCapacity,
                     "Total Pacientes: " ++ toString stats.totalHospitalized],
    censusTitle := "TABLA DE PACIENTES HOSPITALIZADOS",
    censusHeaders := ["#", "CAMA", "TIPO", "PACIENTE", "RUT", "EDAD", "Dx",
                      "ESP", "F. ING", "ESTADO", "BRAZ", "C.QX", "UPC", "POST",
                      "DISPOSITIVOS"],
    censusRows := censusTableRows fmtAdmission record BEDS 1,
    dischargesTitle := "ALTAS DEL DÍA",
    dischargeHeaders := ["ALTAS", "PACIENTE", "RUT", "EDAD", "DIAGNÓSTICO",
                         "ESPECIALIDAD", "DESTINO"],
    dischargeRows :=
      if discharges.length = 0 then [["Sin Altas"]]
      else discharges.map (fun d =>
        [d.status, d.patientName, d.rut, d.age, d.pathology, d.specialty,
         d.destination]),
    transfersTitle := "TRASLADOS",
    transferHeaders := ["TRASLADOS", "PACIENTE", "RUT", "EDAD", "DIAGNÓSTICO",
                        "ESPECIALIDAD", "DESTINO"],
    transferRows :=
      if record.transfers.length = 0 then [["Sin Traslados"]]
      else record.transfers.map (fun t =>
        [t.status, t.patientName, t.rut, t.age, t.pathology, t.specialty,
         t.destination]),
    cmaTitle := "HOSPITALIZACIÓN DIURNA (CMA)",
    cmaHeaders := ["HOSPITALIZACIÓN DIURNA", "PACIENTE", "RUT", "EDAD",
                   "DIAGNÓSTICO", "ESPECIALIDAD", "SERVICIO"],
    cmaRows :=
      if record.cma.length = 0 then [["Sin hospitalización diurna"]]
      else record.cma.map (fun c =>
        [c.status, c.patientName, c.rut, c.age, c.diagnosis, c.specialty,
         c.service]) }

/-- Lexicographic code-unit comparison of character lists. -/
def strLe : List Char → List Char → Bool
  | [], _ => true
  | _ :: _, [] => false
  | c :: cs, d :: ds =>
      if c.toNat < d.toNat then true
      else if d.toNat < c.toNat then false
      else strLe cs ds

/-- The comparator `(a, b) => a.date.localeCompare(b.date)` (for `YYYY-MM-DD`
digit strings the locale comparison coincides with the code-unit order). -/
def dateLe (a b : DailyRecord) : Bool := strLe a.date.toList b.date.toList

/-- `[...records].sort(...)`: a stable sort by the date comparator. -/
def sortByDate (records : List DailyRecord) : List DailyRecord :=
  records.mergeSort dateLe

/-- `buildCensusMasterWorkbook`: throws on a missing or empty record list,
otherwise one worksheet per record, in ascending date order.  The workbook is
modelled by its worksheet list; the `Except.error` carries the thrown
message. -/
def buildCensusMasterWorkbook (BEDS : List Bed)
    (calcStats : List (String × PatientData) → CensusStatistics)
    (fmtAdmission : String → String) (records : Option (List DailyRecord)) :
    Except String (List DaySheet) :=
  match records with
  | Option.none =>
      .error "No hay registros disponibles para generar el Excel maestro."
  | some rs =>
      if rs.length = 0 then
        .error "No hay registros disponibles para generar el Excel maestro."
      else
        .ok ((sortByDate rs).map (createDaySheet BEDS calcStats fmtAdmission))

/-! ## C10 — decodeBase64 (src/firebaseConfig.ts, lines 69–90)

JS strings here are binary strings: sequences of UTF-16 code units, modelled
as lists of natural-number character codes (`atob` consumes base64 alphabet
characters and produces codes below 256). -/

/-- JS `\s` (and `String.prototype.trim`) whitespace, restricted to the
code points that can interact with base64 text: ASCII whitespace, VT and
NBSP. -/
def isJsWs (c : Nat) : Bool :=
  c = 9 || c = 10 || c = 11 || c = 12 || c = 13 || c = 32 || c = 160

/-- ASCII whitespace as stripped by the platform `atob` (forgiving-base64). -/
def isAsciiWs (c : Nat) : Bool :=
  c = 9 || c = 10 || c = 12 || c = 13 || c = 32

/-- `rawValue.trim()`: strip whitespace from both ends. -/
def trimCodes (s : List Nat) : List Nat :=
  ((s.dropWhile isJsWs).reverse.dropWhile isJsWs).reverse

/-- The two URL-safe replacements of `decodeBase64` per character: every
dash (45) becomes a plus (43) and every underscore (95) a slash (47). -/
def normChar (c : Nat) : Nat :=
  if c = 45 then 43 else if c = 95 then 47 else c

/-- JS `padEnd(targetLength, '=')` with the pad character 61 (`=`). -/
def padEnd (s : List Nat) (target : Nat) (c : Nat) : List Nat :=
  s ++ List.replicate (target - s.length) c

/-- Base64 digit value of an alphabet character code (`A-Z a-z 0-9 + /`);
`Option.none` for every other character (including `=`). -/
def decodeB64Char (c : Nat) : Option Nat :=
  if 65 ≤ c ∧ c ≤ 90 then some (c - 65)
  else if 97 ≤ c ∧ c ≤ 122 then some (c - 97 + 26)
  else if 48 ≤ c ∧ c ≤ 57 then some (c - 48 + 52)
  else if c = 43 then some 62
  else if c = 47 then some 63
  else Option.none

/-- The base64 alphabet character code of a digit value below 64. -/
def encodeB64Char (n : Nat) : Nat :=
  if n < 26 then 65 + n
  else if n < 52 then 97 + (n - 26)
  else if n < 62 then 48 + (n - 52)
  else if n = 62 then 43
  else 47

/-- Forgiving-base64 step: when the length is a multiple of four, strip up to
two trailing `=` (61). -/
def stripPadding (s : List Nat) : List Nat :=
  if s.length % 4 = 0 then
    match s.reverse with
    | [] => s
    | [c1] => if c1 = 61 then [] else s
    | c1 :: c2 :: rest =>
        if c1 = 61 then
          if c2 = 61 then rest.reverse else (c2 :: rest).reverse
        else s
  else s

/-- Decode base64 digits in groups of four characters to three bytes; a
trailing group of two or three characters yields one or two bytes (leftover
bits are discarded, as in forgiving-base64); a dangling single character or
any non-alphabet character fails. -/
def decodeGroups : List Nat → Option (List Nat)
  | [] => some []
  | [c1, c2] => do
      let a ← decodeB64Char c1
      let b ← decodeB64Char c2
      pure [a * 4 + b / 16]
  | [c1, c2, c3] => do
      let a ← decodeB64Char c1
      let b ← decodeB64Char c2
      let c ← decodeB64Char c3
      pure [a * 4 + b / 16, (b % 16) * 16 + c / 4]
  | c1 :: c2 :: c3 :: c4 :: rest => do
      let a ← decodeB64Char c1
      let b ← decodeB64Char c2
      let c ← decodeB64Char c3
      let d ← decodeB64Char c4
      let tail ← decodeGroups rest
      pure ([a * 4 + b / 16, (b % 16) * 16 + c / 4, (c % 4) * 64 + d] ++ tail)
  | [_] => Option.none

/-- The platform `atob` (WHATWG forgiving-base64 decode): remove ASCII
whitespace, strip padding, reject a length ≡ 1 (mod 4), decode groups. -/
def atobModel (input : List Nat) : Option (List Nat) :=
  let noWs := input.filter (fun c => !isAsciiWs c)
  let data := stripPadding noWs
  if data.length % 4 = 1 then Option.none
  else decodeGroups data

/-- The normalization chain of `decodeBase64` applied to the trimmed value:
remove all whitespace, apply the URL-safe replacements, then pad with `=` up
to `Math.ceil(value.length / 4) * 4` — the target length computed from the
trimmed value's length. -/
def normalizedOf (value : List Nat) : List Nat :=
  padEnd ((value.filter (fun c => !isJsWs c)).map normChar)
    (((value.length + 3) / 4) * 4) 61

/-- Shallow embedding of `decodeBase64`: trim; return `''` for an empty
value; normalize; `atob` inside try/catch, returning `''` when it throws. -/
def decodeBase64 (rawValue : List Nat) : List Nat :=
  if trimCodes rawValue = [] then []
  else
    match atobModel (normalizedOf (trimCodes rawValue)) with
    | some bytes => bytes
    | Option.none => []

/-- Standard base64 encoding of a byte string, with `=` padding — the form
whose decoding the round-trip claim is about. -/
def encodeB64 : List Nat → List Nat
  | [] => []
  | [a] => [encodeB64Char (a / 4), encodeB64Char ((a % 4) * 16), 61, 61]
  | [a, b] => [encodeB64Char (a / 4), encodeB64Char ((a % 4) * 16 + b / 16),
               encodeB64Char ((b % 16) * 4), 61]
  | a :: b :: c :: rest =>
      [encodeB64Char (a / 4), encodeB64Char ((a % 4) * 16 + b / 16),
       encodeB64Char ((b % 16) * 4 + c / 64), encodeB64Char (c % 64)]
      ++ encodeB64 rest

/-- Standard base64 encoding without the `=` padding. -/
def encodeB64Unpadded : List Nat → List Nat
  | [] => []
  | [a] => [encodeB64Char (a / 4), encodeB64Char ((a % 4) * 16)]
  | [a, b] => [encodeB64Char (a / 4), encodeB64Char ((a % 4) * 16 + b / 16),
               encodeB64Char ((b % 16) * 4)]
  | a :: b :: c :: rest =>
      [encodeB64Char (a / 4), encodeB64Char ((a % 4) * 16 + b / 16),
       encodeB64Char ((b % 16) * 4 + c / 64), encodeB64Char (c % 64)]
      ++ encodeB64Unpadded rest

/-- Number of `=` padding characters of the standard encoding. -/
def padCount (s : List Nat) : Nat :=
  if s.length % 3 = 1 then 2 else if s.length % 3 = 2 then 1 else 0

/-- The URL-safe variant: `+` (43) becomes `-` (45), `/` (47) becomes
`_` (95). -/
def toUrlSafe (s : List Nat) : List Nat :=
  s.map (fun c => if c = 43 then 45 else if c = 47 then 95 else c)

/-- Remove trailing `=` (61) characters. -/
def removeB64Padding (s : List Nat) : List Nat :=
  (s.reverse.dropWhile (fun c => c = 61)).reverse

/-- One of the input forms the round-trip claim names: the base64 encoding of
`s`, optionally URL-safe, optionally with padding removed, surrounded by
optional runs of spaces. -/
def mkVariant (s : List Nat) (urlSafe stripPad : Bool) (pre post : Nat) :
    List Nat :=
  let e := encodeB64 s
  let e := if stripPad then removeB64Padding e else e
  let e := if urlSafe then toUrlSafe e else e
  List.replicate pre 32 ++ e ++ List.replicate post 32

/-- A logger state filled to its configured bound. -/
def loggerAtBound : LoggerState :=
  { config := { minLevel := LogLevel.warn, enableTimestamps := true,
                enableContext := true, maxStoredEntries := 2 },
    entries := [⟨"t1", LogLevel.error, "a", Option.none⟩,
                ⟨"t2", LogLevel.error, "b", Option.none⟩] }

/-! ## Theorems -/

/-- C1.  `performOptimisticUpdate` first calls `onOptimisticUpdate` with the
computed optimistic state and then awaits `updateFn`.  If `updateFn` resolves
it returns `success := true`, fires `onSuccess` exactly when provided, and
performs no rollback (`onError` never fires).  If `updateFn` rejects with `e`
it calls `onError e currentState` — the unmodified prior state — and returns
`success := false` with the error. -/
theorem performOptimisticUpdate_spec {T ε : Type} (currentState : T)
    (optimisticState : OptimisticStateArg T) (hasOnSuccess : Bool) (e : ε) :
    performOptimisticUpdate currentState optimisticState (Except.ok () : Except ε Unit) hasOnSuccess
      = (⟨true, none⟩,
          [OptEvent.onOptimisticUpdate (computeOptimistic currentState optimisticState),
           OptEvent.updateFn]
            ++ (if hasOnSuccess then [OptEvent.onSuccess] else []))
    ∧ ((performOptimisticUpdate currentState optimisticState
          (Except.ok () : Except ε Unit) hasOnSuccess).2.any OptEvent.isError) = false
    ∧ performOptimisticUpdate currentState optimisticState (Except.error e) hasOnSuccess
      = (⟨false, some e⟩,
          [OptEvent.onOptimisticUpdate (computeOptimistic currentState optimisticState),
           OptEvent.updateFn,
           OptEvent.onError e currentState]) := by
  refine ⟨rfl, ?_, rfl⟩
  cases hasOnSuccess <;> simp [performOptimisticUpdate, OptEvent.isError]

/-- C2.  Last-write-wins: whenever the remote timestamp is strictly later the
remote copy is chosen in full, otherwise the local copy is kept in full. -/
theorem resolveConflict_lww {β : Type} (localRec remoteRec : SyncRecord β) :
    (localRec.lastUpdated < remoteRec.lastUpdated →
        resolveConflict localRec remoteRec = remoteRec)
    ∧ (¬ localRec.lastUpdated < remoteRec.lastUpdated →
        resolveConflict localRec remoteRec = localRec) := by
  constructor <;> intro h <;> simp [resolveConflict, h]

/-- Witness for C2 at the tests' concrete inputs: remote stamped later wins;
an equal stamp keeps the local copy. -/
theorem resolveConflict_lww_witness :
    resolveConflict (⟨"2024-12-23", "Local Juan", 10⟩ : SyncRecord String)
        ⟨"2024-12-23", "Remote Juan", 11⟩ = ⟨"2024-12-23", "Remote Juan", 11⟩
    ∧ resolveConflict (⟨"2024-12-23", "Local Juan", 11⟩ : SyncRecord String)
        ⟨"2024-12-23", "Remote Juan", 11⟩ = ⟨"2024-12-23", "Local Juan", 11⟩ :=
  ⟨(resolveConflict_lww _ _).1 (by decide), (resolveConflict_lww _ _).2 (by decide)⟩

/-- C6 counterexample.  The claim — a call made while `isPending = true` does
not start a duplicate persistence write — is false: from a pending hook state
the synchronous body of `updateOptimistically` still starts a `persistFn`
write (there is no check of the pending flag in the source). -/
theorem updateOptimistically_pending_counterexample :
    (⟨0, true, none, 0⟩ : HookState Nat Nat).isPending = true
    ∧ (updateOptimisticallyStart (⟨0, true, none, 0⟩ : HookState Nat Nat)
        (OptimisticStateArg.value 1)).2 = some 1
    ∧ (updateOptimisticallyStart (⟨0, true, none, 0⟩ : HookState Nat Nat)
        (OptimisticStateArg.value 1)).2 ≠ none := by
  refine ⟨rfl, rfl, by simp [updateOptimisticallyStart]⟩

/-- C6 amended.  `updateOptimistically` starts a persistence write on every
call, regardless of `isPending`: the hook does not itself prevent duplicate
writes; it only exposes the boolean pending flag (set while the write is in
flight) so that callers can avoid issuing duplicates. -/
theorem updateOptimistically_always_writes {T ε : Type} (h : HookState T ε)
    (updater : OptimisticStateArg T) :
    (updateOptimisticallyStart h updater).2
        = some (computeOptimistic h.state updater)
    ∧ (updateOptimisticallyStart h updater).1.isPending = true
    ∧ (updateOptimisticallyFinish
        (updateOptimisticallyStart h updater).1 (Except.ok ())).1.isPending = false :=
  ⟨rfl, rfl, rfl⟩

theorem totalCategories_cons (p : CudyrPatient) (ps : List CudyrPatient) :
    totalCategories (p :: ps) = markedCount p.cudyr + totalCategories ps := by
  have aux : ∀ (l : List CudyrPatient) (a : Nat),
      l.foldl (fun sum q => sum + markedCount q.cudyr) a
        = a + l.foldl (fun sum q => sum + markedCount q.cudyr) 0 := by
    intro l
    induction l with
    | nil => intro a; simp
    | cons q l ih =>
        intro a
        simp only [List.foldl_cons]
        rw [ih (a + markedCount q.cudyr), ih (0 + markedCount q.cudyr)]
        omega
  simp only [totalCategories, List.foldl_cons]
  rw [aux ps (0 + markedCount p.cudyr)]
  omega

/-- C7.  The two aggregations of the same boolean matrix agree: summing each
patient's marked-category count equals the sum of the five per-category
frequency counts. -/
theorem cudyr_counts_sum (patients : List CudyrPatient) :
    totalCategories patients
      = countC patients + countU patients + countD patients
          + countY patients + countR patients := by
  induction patients with
  | nil => rfl
  | cons p ps ih =>
      rw [totalCategories_cons]
      simp only [countC, countU, countD, countY, countR, List.filter_cons] at *
      rcases hcud : p.cudyr with _ | s
      · simp [markedCount, readsC, readsU, readsD, readsY, readsR, hcud, ih]
      · rcases s with ⟨c, u, d, y, r⟩
        cases c <;> cases u <;> cases d <;> cases y <;> cases r <;>
          simp [markedCount, readsC, readsU, readsD, readsY, readsR, hcud] <;>
          omega

theorem lookupBed_setBed_self (beds : List (String × PatientData))
    (bedId : String) (p q : PatientData) (h : lookupBed beds bedId = some q) :
    lookupBed (setBed beds bedId p) bedId = some p := by
  induction beds with
  | nil => simp [lookupBed] at h
  | cons b beds ih =>
      rcases b with ⟨k, v⟩
      by_cases hb : (k == bedId) = true
      · simp only [lookupBed, setBed, List.map_cons, hb, if_true]
        rw [List.find?_cons_of_pos _ (by simpa using hb)]
        rfl
      · have hb' : (k == bedId) = false := by
          cases hk : (k == bedId) <;> simp [hk] at hb ⊢
        simp only [lookupBed, setBed, List.map_cons, hb',
          Bool.false_eq_true, if_false] at h ⊢
        rw [List.find?_cons_of_neg _ (by simp [hb'])] at h
        rw [List.find?_cons_of_neg _ (by simp [hb'])]
        exact ih h

/-- C3.  For a record containing a discharge entry with an `originalData`
snapshot: when the discharged patient's bed is empty, the undo restores the
original patient record to the bed and removes exactly the entries bearing
that discharge id (every other discharge entry is retained); when the bed is
occupied, the undo is refused and no updated record is saved. -/
theorem undoDischarge_spec (record : DailyRecord) (dischargeId : String)
    (d : DischargeData) (original bedP : PatientData)
    (hfind : record.discharges.find? (fun d2 => d2.id == dischargeId) = some d)
    (horig : d.originalData = some original)
    (hbed : lookupBed record.beds d.bedId = some bedP) :
    (bedP.patientName = "" →
        undoDischarge record dischargeId
          = some { record with
                     beds := setBed record.beds d.bedId original,
                     discharges :=
                       record.discharges.filter (fun d2 => !(d2.id == dischargeId)) }
        ∧ ∀ r2, undoDischarge record dischargeId = some r2 →
            lookupBed r2.beds d.bedId = some original
            ∧ (∀ d2 ∈ record.discharges, d2.id ≠ dischargeId → d2 ∈ r2.discharges)
            ∧ (∀ d2 ∈ r2.discharges, d2 ∈ record.discharges ∧ d2.id ≠ dischargeId))
    ∧ (bedP.patientName ≠ "" → undoDischarge record dischargeId = none) := by
  have hrun : ∀ P : Option DailyRecord → Prop,
      P (if bedP.patientName = "" then
           some { record with
                    beds := setBed record.beds d.bedId original,
                    discharges :=
                      record.discharges.filter (fun d2 => !(d2.id == dischargeId)) }
         else none) →
      P (undoDischarge record dischargeId) := by
    intro P hP
    simpa [undoDischarge, hfind, horig, hbed] using hP
  constructor
  · intro hempty
    constructor
    · exact hrun (· = _) (by simp [hempty])
    · intro r2 hr2
      have heq : undoDischarge record dischargeId
          = some { record with
                     beds := setBed record.beds d.bedId original,
                     discharges :=
                       record.discharges.filter (fun d2 => !(d2.id == dischargeId)) } :=
        hrun (· = _) (by simp [hempty])
      rw [heq] at hr2
      cases hr2
      refine ⟨lookupBed_setBed_self _ _ _ _ hbed, ?_, ?_⟩
      · intro d2 hmem hne
        simp only [List.mem_filter]
        exact ⟨hmem, by simpa using hne⟩
      · intro d2 hmem
        simp only [List.mem_filter] at hmem
        exact ⟨hmem.1, by simpa using hmem.2⟩
  · intro hocc
    exact hrun (· = none) (by simp [hocc])

/-- Witness for C3 at the test's record ("should restore patient to empty bed
after undo" and "should not undo if bed is already occupied"). -/
theorem undoDischarge_spec_witness :
    (undoDischarge
        { date := "2024-12-23",
          beds := [("bed-1", { bedId := "bed-1" })],
          discharges := [{ id := "discharge-1", bedId := "bed-1",
                           patientName := "Juan Pérez", status := "Vivo",
                           originalData :=
                             some { bedId := "bed-1", patientName := "Juan Pérez" } }] }
        "discharge-1")
      = some { date := "2024-12-23",
               beds := [("bed-1", { bedId := "bed-1", patientName := "Juan Pérez" })],
               discharges := [] }
    ∧ (undoDischarge
        { date := "2024-12-23",
          beds := [("bed-1", { bedId := "bed-1", patientName := "Nuevo Paciente" })],
          discharges := [{ id := "discharge-1", bedId := "bed-1",
                           patientName := "Juan Pérez", status := "Vivo",
                           originalData :=
                             some { bedId := "bed-1", patientName := "Juan Pérez" } }] }
        "discharge-1")
      = none := by
  constructor
  · exact ((undoDischarge_spec
      { date := "2024-12-23",
        beds := [("bed-1", { bedId := "bed-1" })],
        discharges := [{ id := "discharge-1", bedId := "bed-1",
                         patientName := "Juan Pérez", status := "Vivo",
                         originalData :=
                           some { bedId := "bed-1", patientName := "Juan Pérez" } }] }
      "discharge-1"
      { id := "discharge-1", bedId := "bed-1",
        patientName := "Juan Pérez", status := "Vivo",
        originalData := some { bedId := "bed-1", patientName := "Juan Pérez" } }
      { bedId := "bed-1", patientName := "Juan Pérez" }
      { bedId := "bed-1" }
      (by decide) rfl (by decide)).1 (by decide)).1
  · exact (undoDischarge_spec
      { date := "2024-12-23",
        beds := [("bed-1", { bedId := "bed-1", patientName := "Nuevo Paciente" })],
        discharges := [{ id := "discharge-1", bedId := "bed-1",
                         patientName := "Juan Pérez", status := "Vivo",
                         originalData :=
                           some { bedId := "bed-1", patientName := "Juan Pérez" } }] }
      "discharge-1"
      { id := "discharge-1", bedId := "bed-1",
        patientName := "Juan Pérez", status := "Vivo",
        originalData := some { bedId := "bed-1", patientName := "Juan Pérez" } }
      { bedId := "bed-1", patientName := "Juan Pérez" }
      { bedId := "bed-1", patientName := "Nuevo Paciente" }
      (by decide) rfl (by decide)).2 (by decide)

/-- C4 counterexample.  The invariants do not hold of every record the system
produces or maintains: carrying `blockedOccupiedRecord` to the next day
produces a record whose bed "bed-1" is blocked yet occupied (name "Juan"), so
"a blocked bed has no occupant" fails on a system-produced record. -/
theorem bed_invariants_counterexample :
    lookupBed (copyPatientsFromPrevious blockedOccupiedRecord "2024-12-23").beds "bed-1"
      = some { bedId := "bed-1", patientName := "Juan", isBlocked := true }
    ∧ ¬ (∀ b ∈ (copyPatientsFromPrevious blockedOccupiedRecord "2024-12-23").beds,
          bedInvariantClaimed b.2) := by
  constructor
  · rfl
  · intro hall
    have hmem : ("bed-1",
        ({ bedId := "bed-1", patientName := "Juan", isBlocked := true } : PatientData))
        ∈ (copyPatientsFromPrevious blockedOccupiedRecord "2024-12-23").beds := by
      decide
    have h2 := (hall _ hmem).2 rfl
    simp at h2

/-- C4 amended.  Occupancy is derived, not stored: a bed is occupied exactly
when its patient-name field is non-empty after trimming whitespace (this holds
definitionally for every bed).  "A blocked bed has no occupant" is preserved
rather than enforced: if every bed of the previous record satisfies it, every
bed of the record copied to the new day satisfies it too. -/
theorem copyPatientsFromPrevious_bed_invariants (prevRecord : DailyRecord)
    (newDate : String)
    (hprev : ∀ b ∈ prevRecord.beds, b.2.isBlocked = true → b.2.patientName = "") :
    ∀ b ∈ (copyPatientsFromPrevious prevRecord newDate).beds,
      bedInvariantDerived b.2 := by
  intro b hb
  simp only [copyPatientsFromPrevious, List.mem_map] at hb
  obtain ⟨⟨k, p⟩, hmem, rfl⟩ := hb
  refine ⟨by simp [isOccupied], ?_⟩
  intro hblk
  by_cases hcond : p.patientName ≠ "" ∨ p.isBlocked = true
  · simp only [copyBedForNewDay, if_pos hcond] at hblk ⊢
    exact hprev _ hmem hblk
  · simp only [copyBedForNewDay, if_neg hcond] at hblk
    simp at hblk

/-- Witness for C4 amended at a record with a blocked empty bed, an occupied
bed and a free bed. -/
theorem copyPatientsFromPrevious_bed_invariants_witness :
    (∀ b ∈ (({ date := "2024-12-22",
               beds := [("R1", { bedId := "R1", patientName := "Juan Pérez" }),
                        ("R3", { bedId := "R3", isBlocked := true }),
                        ("R4", { bedId := "R4" })] } : DailyRecord)).beds,
        b.2.isBlocked = true → b.2.patientName = "")
    ∧ ∀ b ∈ (copyPatientsFromPrevious
          { date := "2024-12-22",
            beds := [("R1", { bedId := "R1", patientName := "Juan Pérez" }),
                     ("R3", { bedId := "R3", isBlocked := true }),
                     ("R4", { bedId := "R4" })] } "2024-12-23").beds,
        bedInvariantDerived b.2 := by
  refine ⟨by decide, ?_⟩
  exact copyPatientsFromPrevious_bed_invariants _ _ (by decide)

theorem storeEntry_length_le (s : LoggerState) (entry : LogEntry)
    (h : s.entries.length ≤ s.config.maxStoredEntries) :
    (storeEntry s entry).entries.length ≤ s.config.maxStoredEntries := by
  simp only [storeEntry]
  split
  · next hgt => simp only [List.length_tail, List.length_append,
      List.length_singleton]; omega
  · next hle =>
      simp only [not_lt, List.length_append, List.length_singleton] at hle
      simpa using hle

/-- C9 counterexample.  The bound is not an invariant of every reachable
logger state: after two stored entries, `configure` may lower
`maxStoredEntries` to 1, leaving two stored entries above the bound (and a
subsequent store removes only one entry, so the excess persists). -/
theorem logger_bound_counterexample :
    (runOps false
        [LoggerOp.log LogLevel.error "a" Option.none "t1",
         LoggerOp.log LogLevel.error "b" Option.none "t2",
         LoggerOp.configureMax 1]).entries.length = 2
    ∧ (runOps false
        [LoggerOp.log LogLevel.error "a" Option.none "t1",
         LoggerOp.log LogLevel.error "b" Option.none "t2",
         LoggerOp.configureMax 1]).config.maxStoredEntries = 1
    ∧ ¬ (∀ (isDev : Bool) (ops : List LoggerOp),
          (runOps isDev ops).entries.length
            ≤ (runOps isDev ops).config.maxStoredEntries) := by
  refine ⟨by decide, by decide, ?_⟩
  intro hall
  exact absurd
    (hall false
      [LoggerOp.log LogLevel.error "a" Option.none "t1",
       LoggerOp.log LogLevel.error "b" Option.none "t2",
       LoggerOp.configureMax 1])
    (by decide)

/-- C9 amended.  From any state within the bound, every public operation that
does not itself reconfigure `maxStoredEntries` below the current entry count
keeps the entry list within `maxStoredEntries` (a fresh logger starts within
its default bound of 100); a store hitting the bound drops exactly the oldest
entry (FIFO) and stays at the bound; a store under the bound appends; and
`getEntries` returns the stored entries (in the pure embedding the fresh-array
copy is value-equal to the store). -/
theorem logger_bound_amended (s : LoggerState) (op : LoggerOp)
    (hbound : s.entries.length ≤ s.config.maxStoredEntries)
    (hcfg : ∀ m, op = LoggerOp.configureMax m → s.entries.length ≤ m) :
    ((applyOp s op).entries.length ≤ (applyOp s op).config.maxStoredEntries)
    ∧ (∀ entry, s.entries.length = s.config.maxStoredEntries →
        (storeEntry s entry).entries = (s.entries ++ [entry]).tail
        ∧ (storeEntry s entry).entries.length = s.config.maxStoredEntries)
    ∧ (∀ entry, s.entries.length < s.config.maxStoredEntries →
        (storeEntry s entry).entries = s.entries ++ [entry])
    ∧ getEntries s = s.entries
    ∧ (initialLogger false).entries.length ≤ (initialLogger false).config.maxStoredEntries
    ∧ (initialLogger false).config.maxStoredEntries = 100 := by
  refine ⟨?_, ?_, ?_, rfl, by decide, by decide⟩
  · cases op with
    | log level message context timestamp =>
        simp only [applyOp, logMethod]
        split
        · exact storeEntry_length_le s _ hbound
        · exact hbound
    | configureMax m => simpa [applyOp] using hcfg m rfl
    | setLevel l => simpa [applyOp] using hbound
    | clearEntries => simp [applyOp]
  · intro entry hlen
    constructor
    · simp only [storeEntry, List.length_append, List.length_singleton]
      rw [if_pos (by omega)]
    · simp only [storeEntry, List.length_append, List.length_singleton]
      rw [if_pos (by omega)]
      simp only [List.length_tail, List.length_append, List.length_singleton]
      omega
  · intro entry hlt
    simp only [storeEntry, List.length_append, List.length_singleton]
    rw [if_neg (by omega)]

/-- Witness for C9 amended: storing into a logger filled to a bound of two
drops the oldest entry and keeps the count at two. -/
theorem logger_bound_amended_witness :
    ((applyOp loggerAtBound
        (LoggerOp.log LogLevel.error "c" Option.none "t3")).entries.length
      ≤ (applyOp loggerAtBound
          (LoggerOp.log LogLevel.error "c" Option.none "t3")).config.maxStoredEntries)
    ∧ (storeEntry loggerAtBound ⟨"t3", LogLevel.error, "c", Option.none⟩).entries
        = [⟨"t2", LogLevel.error, "b", Option.none⟩,
           ⟨"t3", LogLevel.error, "c", Option.none⟩] := by
  have h := logger_bound_amended loggerAtBound
      (LoggerOp.log LogLevel.error "c" Option.none "t3")
      (by decide) (by intro m hm; cases hm)
  refine ⟨h.1, ?_⟩
  rw [(h.2.1 ⟨"t3", LogLevel.error, "c", Option.none⟩ (by decide)).1]
  decide

theorem validateRecord_error_prefix (record : Option RecordJson) (msg : String)
    (h : validateRecord record = Except.error msg) :
    classifyCaught msg = 400 := by
  rcases record with _ | r
  · simp only [validateRecord] at h
    cases h
    decide
  · simp only [validateRecord] at h
    by_cases hd : r.date = ""
    · rw [if_pos hd] at h; cases h; decide
    · rw [if_neg hd] at h
      by_cases hb : r.beds.length = 0
      · rw [if_pos hb] at h; cases h; decide
      · rw [if_neg hb] at h; cases h

/-- C5 counterexample.  "Every other failure returns a 5xx status" fails: for
a POST from an allowed role with a valid record, an email-relay rejection
whose message itself begins with `Solicitud inválida` is classified by the
catch block's message-prefix test as a client error and returns 400, not 5xx. -/
theorem send_census_email_5xx_counterexample :
    roleAllowed validCensusEvent.userRole = true
    ∧ requestValid validCensusEvent.body = true
    ∧ (handler validCensusEvent (Except.ok ())
        (Except.error "Solicitud inválida: error interno del relé")).statusCode = 400
    ∧ ¬ 500 ≤ (handler validCensusEvent (Except.ok ())
        (Except.error "Solicitud inválida: error interno del relé")).statusCode := by
  refine ⟨by decide, by decide, by decide, by decide⟩

/-- C5 amended.  The handler returns 200 with the `{success, gmailId}` body
exactly when the request is a POST with an allowed role header, a parseable
body holding a valid record, and the attachment build and email relay both
succeed.  A non-POST request gets 405; a missing or disallowed role gets 403
before any work; a validation failure gets 400 with no email sent.  Any other
failure is classified by `classifyCaught`: 500 unless the failure's own
message begins with `Solicitud inválida` or `No autorizado`, which yields
400. -/
theorem send_census_email_handler_spec (event : HandlerEvent)
    (buildOutcome : Except String Unit) (sendOutcome : Except String GmailResponse)
    (resp : GmailResponse) (msg : String) :
    (event.httpMethod = "POST" → roleAllowed event.userRole = true →
      requestValid event.body = true → buildOutcome = Except.ok () →
      sendOutcome = Except.ok resp →
        handler event buildOutcome sendOutcome
          = ⟨200, ResponseBody.json true "Correo enviado" resp.id, true⟩)
    ∧ ((handler event buildOutcome sendOutcome).statusCode = 200 →
        event.httpMethod = "POST" ∧ roleAllowed event.userRole = true
          ∧ requestValid event.body = true ∧ buildOutcome = Except.ok ()
          ∧ sendOutcome.isOk = true)
    ∧ (event.httpMethod ≠ "POST" →
        handler event buildOutcome sendOutcome
          = ⟨405, ResponseBody.text "Método no permitido", false⟩)
    ∧ (event.httpMethod = "POST" → roleAllowed event.userRole = false →
        handler event buildOutcome sendOutcome
          = ⟨403, ResponseBody.text "No autorizado para enviar correos de censo.",
              false⟩)
    ∧ (event.httpMethod = "POST" → roleAllowed event.userRole = true →
        requestValid event.body = false →
        (handler event buildOutcome sendOutcome).statusCode = 400
        ∧ (handler event buildOutcome sendOutcome).emailAttempted = false)
    ∧ (event.httpMethod = "POST" → roleAllowed event.userRole = true →
        requestValid event.body = true → buildOutcome = Except.error msg →
        handler event buildOutcome sendOutcome
          = ⟨classifyCaught msg, ResponseBody.text msg, false⟩)
    ∧ (event.httpMethod = "POST" → roleAllowed event.userRole = true →
        requestValid event.body = true → buildOutcome = Except.ok () →
        sendOutcome = Except.error msg →
        handler event buildOutcome sendOutcome
          = ⟨classifyCaught msg, ResponseBody.text msg, true⟩)
    ∧ classifyCaught msg
        = if (strStartsWith msg "Solicitud inválida"
              || strStartsWith msg "No autorizado") = true then 400 else 500 := by
  refine ⟨?_, ?_, ?_, ?_, ?_, ?_, ?_, by simp [classifyCaught]⟩
  · intro hm hr hv hb hs
    rcases hbody : event.body with _ | _ | payload <;> rw [hbody] at hv
    · simp [requestValid] at hv
    · simp [requestValid] at hv
    · rcases hval : validateRecord payload.record with msg2 | u
      · simp [requestValid, hval] at hv
      · simp [handler, hm, hr, hbody, handlerTry, hval, hb, hs]
  · intro h200
    by_cases hm : event.httpMethod = "POST"
    case neg => simp [handler, hm] at h200
    rcases hr : roleAllowed event.userRole with _ | _
    · simp [handler, hm, hr] at h200
    rcases hbody : event.body with _ | _ | payload
    · exfalso
      simp [handler, hm, hr, hbody, handlerTry, classifyCaught] at h200
      split at h200 <;> omega
    · exfalso
      simp [handler, hm, hr, hbody, handlerTry, classifyCaught] at h200
      split at h200 <;> omega
    · rcases hval : validateRecord payload.record with msg2 | u
      · exfalso
        have h400 := validateRecord_error_prefix payload.record msg2 hval
        simp [handler, hm, hr, hbody, handlerTry, hval, h400] at h200
      · rcases hb : buildOutcome with msgb | ub
        · exfalso
          simp [handler, hm, hr, hbody, handlerTry, hval, hb, classifyCaught] at h200
          split at h200 <;> omega
        · rcases hs : sendOutcome with msgs | resps
          · exfalso
            simp [handler, hm, hr, hbody, handlerTry, hval, hb, hs, classifyCaught] at h200
            split at h200 <;> omega
          · exact ⟨hm, rfl, by simp [requestValid, hbody, hval], rfl,
              by simp [hs, Except.isOk, Except.toBool]⟩
  · intro hm
    simp [handler, hm]
  · intro hm hr
    simp [handler, hm, hr]
  · intro hm hr hv
    rcases hbody : event.body with _ | _ | payload <;> rw [hbody] at hv
    · have h400 : classifyCaught "Solicitud inválida: falta el cuerpo." = 400 := by decide
      constructor <;> simp [handler, hm, hr, hbody, handlerTry, h400]
    · have h400 :
          classifyCaught "Solicitud inválida: el cuerpo no es un JSON válido." = 400 := by
        decide
      constructor <;> simp [handler, hm, hr, hbody, handlerTry, h400]
    · rcases hval : validateRecord payload.record with msg2 | u
      · have h400 := validateRecord_error_prefix payload.record msg2 hval
        constructor <;> simp [handler, hm, hr, hbody, handlerTry, hval, h400]
      · simp [requestValid, hval] at hv
  · intro hm hr hv hb
    rcases hbody : event.body with _ | _ | payload <;> rw [hbody] at hv
    · simp [requestValid] at hv
    · simp [requestValid] at hv
    · rcases hval : validateRecord payload.record with msg2 | u
      · simp [requestValid, hval] at hv
      · simp [handler, hm, hr, hbody, handlerTry, hval, hb]
  · intro hm hr hv hb hs
    rcases hbody : event.body with _ | _ | payload <;> rw [hbody] at hv
    · simp [requestValid] at hv
    · simp [requestValid] at hv
    · rcases hval : validateRecord payload.record with msg2 | u
      · simp [requestValid, hval] at hv
      · simp [handler, hm, hr, hbody, handlerTry, hval, hb, hs]

/-- Witness for C5 amended: the fully valid request with both effects
succeeding returns the 200 success body; the same request without a role
header is refused with 403 before any email is attempted. -/
theorem send_census_email_handler_spec_witness :
    handler validCensusEvent (Except.ok ()) (Except.ok ⟨"gmail-1"⟩)
      = ⟨200, ResponseBody.json true "Correo enviado" "gmail-1", true⟩
    ∧ handler { httpMethod := "POST", body := validCensusEvent.body }
        (Except.ok ()) (Except.ok ⟨"gmail-1"⟩)
      = ⟨403, ResponseBody.text "No autorizado para enviar correos de censo.",
          false⟩ := by
  constructor
  · exact (send_census_email_handler_spec validCensusEvent (Except.ok ())
      (Except.ok ⟨"gmail-1"⟩) ⟨"gmail-1"⟩ "").1 (by decide) (by decide)
      (by decide) rfl rfl
  · exact (send_census_email_handler_spec
      { httpMethod := "POST", body := validCensusEvent.body } (Except.ok ())
      (Except.ok ⟨"gmail-1"⟩) ⟨"gmail-1"⟩ "").2.2.2.1 (by decide) (by decide)

theorem strLe_trans (a b c : List Char) (hab : strLe a b = true)
    (hbc : strLe b c = true) : strLe a c = true := by
  induction a generalizing b c with
  | nil => simp [strLe]
  | cons x as ih =>
      cases b with
      | nil => simp [strLe] at hab
      | cons y bs =>
          cases c with
          | nil => simp [strLe] at hbc
          | cons z cs =>
              simp only [strLe] at hab hbc ⊢
              split_ifs at hab hbc ⊢ <;>
                first
                  | rfl
                  | omega
                  | exact ih bs cs hab hbc

theorem strLe_total (a b : List Char) : (strLe a b || strLe b a) = true := by
  induction a generalizing b with
  | nil => simp [strLe]
  | cons x as ih =>
      cases b with
      | nil => simp [strLe]
      | cons y bs =>
          simp only [strLe]
          by_cases hxy : x.toNat < y.toNat
          · simp [hxy]
          · by_cases hyx : y.toNat < x.toNat
            · simp [hxy, hyx]
            · simpa [hxy, hyx] using ih bs

theorem splitDash_no_dash (xs : List Char) (hx : ('-' : Char) ∉ xs) :
    splitDash xs = [xs] := by
  induction xs with
  | nil => rfl
  | cons c cs ih =>
      simp only [List.mem_cons, not_or] at hx
      simp only [splitDash]
      rw [if_neg (fun h => hx.1 h.symm), ih hx.2]

theorem splitDash_append (xs rest : List Char) (hx : ('-' : Char) ∉ xs) :
    splitDash (xs ++ '-' :: rest) = xs :: splitDash rest := by
  induction xs with
  | nil => simp [splitDash]
  | cons c cs ih =>
      simp only [List.mem_cons, not_or] at hx
      simp only [List.cons_append, splitDash]
      rw [if_neg (fun h => hx.1 h.symm)]
      simp only [List.append_eq]
      rw [ih hx.2]

theorem formatSheetName_parts (y m d : String)
    (hy : ('-' : Char) ∉ y.toList) (hm : ('-' : Char) ∉ m.toList)
    (hd : ('-' : Char) ∉ d.toList) :
    formatSheetName (y ++ "-" ++ m ++ "-" ++ d) = d ++ "-" ++ m ++ "-" ++ y := by
  have htl : (y ++ "-" ++ m ++ "-" ++ d).toList
      = y.toList ++ '-' :: (m.toList ++ '-' :: d.toList) := by
    simp [String.toList, String.data_append]
  simp only [formatSheetName, htl]
  rw [splitDash_append _ _ hy, splitDash_append _ _ hm, splitDash_no_dash _ hd]
  simp only [List.map_cons, List.getD, List.getElem?_cons_zero,
    List.getElem?_cons_succ, Option.getD_some]
  rfl

/-- C8.  For a non-empty record list, `buildCensusMasterWorkbook` produces one
worksheet per record (the sorted list is a permutation of the input),
worksheets appear in ascending order of the records' date strings, each is
named `DD-MM-YYYY` from its record's `YYYY-MM-DD` date, and each carries the
fixed section titles and Spanish column headers; a missing or empty list
throws instead. -/
theorem buildCensusMasterWorkbook_spec (BEDS : List Bed)
    (calcStats : List (String × PatientData) → CensusStatistics)
    (fmtAdmission : String → String) (records : List DailyRecord)
    (hne : records ≠ []) :
    buildCensusMasterWorkbook BEDS calcStats fmtAdmission (some records)
      = Except.ok
          ((sortByDate records).map (createDaySheet BEDS calcStats fmtAdmission))
    ∧ (sortByDate records).Perm records
    ∧ ((sortByDate records).map (createDaySheet BEDS calcStats fmtAdmission)).length
        = records.length
    ∧ List.Pairwise (fun a b => dateLe a b = true) (sortByDate records)
    ∧ (∀ sheet ∈ (sortByDate records).map (createDaySheet BEDS calcStats fmtAdmission),
        ∃ r ∈ records,
          sheet = createDaySheet BEDS calcStats fmtAdmission r
          ∧ sheet.name = formatSheetName r.date
          ∧ sheet.title = "CENSO CAMAS DIARIO - HOSPITAL HANGA ROA"
          ∧ sheet.censusHeaders
              = ["#", "CAMA", "TIPO", "PACIENTE", "RUT", "EDAD", "Dx", "ESP",
                 "F. ING", "ESTADO", "BRAZ", "C.QX", "UPC", "POST", "DISPOSITIVOS"]
          ∧ sheet.dischargeHeaders
              = ["ALTAS", "PACIENTE", "RUT", "EDAD", "DIAGNÓSTICO",
                 "ESPECIALIDAD", "DESTINO"]
          ∧ sheet.transferHeaders
              = ["TRASLADOS", "PACIENTE", "RUT", "EDAD", "DIAGNÓSTICO",
                 "ESPECIALIDAD", "DESTINO"]
          ∧ sheet.cmaHeaders
              = ["HOSPITALIZACIÓN DIURNA", "PACIENTE", "RUT", "EDAD",
                 "DIAGNÓSTICO", "ESPECIALIDAD", "SERVICIO"]
          ∧ sheet.summaryLabels
              = ["Ocupadas", "Libres", "Bloqueadas", "Cunas", "Altas",
                 "Traslados", "Hosp. Diurna", "Fallecidos"])
    ∧ (∀ y m d : String, ('-' : Char) ∉ y.toList → ('-' : Char) ∉ m.toList →
        ('-' : Char) ∉ d.toList →
        formatSheetName (y ++ "-" ++ m ++ "-" ++ d) = d ++ "-" ++ m ++ "-" ++ y)
    ∧ buildCensusMasterWorkbook BEDS calcStats fmtAdmission Option.none
        = Except.error "No hay registros disponibles para generar el Excel maestro."
    ∧ buildCensusMasterWorkbook BEDS calcStats fmtAdmission (some [])
        = Except.error "No hay registros disponibles para generar el Excel maestro." := by
  refine ⟨?_, List.mergeSort_perm records dateLe, ?_, ?_, ?_,
    fun y m d hy hm hd => formatSheetName_parts y m d hy hm hd, rfl, rfl⟩
  · have hlen : records.length ≠ 0 := by
      simpa [List.length_eq_zero] using hne
    simp [buildCensusMasterWorkbook, hlen]
  · simp [sortByDate, List.length_mergeSort]
  · show List.Pairwise (fun a b => dateLe a b = true) (records.mergeSort dateLe)
    exact @List.sorted_mergeSort DailyRecord dateLe
      (fun a b c hab hbc =>
        strLe_trans a.date.toList b.date.toList c.date.toList hab hbc)
      (fun a b => strLe_total a.date.toList b.date.toList) records
  · intro sheet hs
    obtain ⟨r, hr, rfl⟩ := List.mem_map.1 hs
    refine ⟨r, ((List.mergeSort_perm records dateLe).mem_iff).1 hr,
      rfl, rfl, rfl, rfl, rfl, rfl, rfl, rfl⟩

/-- Witness for C8: two one-day records given out of order come back as one
sheet each, ascending by date, with the later date's sheet second and the
`DD-MM-YYYY` name for the earlier record. -/
theorem buildCensusMasterWorkbook_spec_witness :
    buildCensusMasterWorkbook [] (fun _ => ⟨0, 0, 0, 0, 0, 0, 0⟩) (fun s => s)
        (some [{ date := "2025-12-16", beds := [] },
               { date := "2025-12-15", beds := [] }])
      = Except.ok
          [createDaySheet [] (fun _ => ⟨0, 0, 0, 0, 0, 0, 0⟩) (fun s => s)
             { date := "2025-12-15", beds := [] },
           createDaySheet [] (fun _ => ⟨0, 0, 0, 0, 0, 0, 0⟩) (fun s => s)
             { date := "2025-12-16", beds := [] }]
    ∧ formatSheetName "2025-12-15" = "15-12-2025" := by
  have h := buildCensusMasterWorkbook_spec [] (fun _ => ⟨0, 0, 0, 0, 0, 0, 0⟩)
      (fun s => s)
      [{ date := "2025-12-16", beds := [] }, { date := "2025-12-15", beds := [] }]
      (by simp)
  constructor
  · rw [h.1]
    have hsort : sortByDate
        [{ date := "2025-12-16", beds := [] }, { date := "2025-12-15", beds := [] }]
        = [{ date := "2025-12-15", beds := [] },
           { date := "2025-12-16", beds := [] }] := by
      simp [sortByDate, List.mergeSort, List.merge, dateLe, strLe]
    rw [hsort]
    rfl
  · have hfmt := h.2.2.2.2.2.1 "2025" "12" "15" (by decide) (by decide) (by decide)
    simpa using hfmt

theorem b64Char_props : ∀ n, n < 64 →
    decodeB64Char (encodeB64Char n) = some n
    ∧ encodeB64Char n ≠ 61 ∧ encodeB64Char n ≠ 45 ∧ encodeB64Char n ≠ 95
    ∧ isJsWs (encodeB64Char n) = false
    ∧ isAsciiWs (encodeB64Char n) = false := by
  decide

theorem dropWhile_replicate_append {α : Type} (p : α → Bool) (c : α)
    (hc : p c = true) (n : Nat) (l : List α) :
    (List.replicate n c ++ l).dropWhile p = l.dropWhile p := by
  induction n with
  | zero => simp
  | succ k ih => simp [List.replicate_succ, List.dropWhile_cons, hc, ih]

theorem dropWhile_eq_self_of_all {α : Type} (p : α → Bool) (l : List α)
    (h : ∀ c ∈ l, p c = false) : l.dropWhile p = l := by
  cases l with
  | nil => rfl
  | cons c rest => simp [List.dropWhile_cons, h c (by simp)]

theorem trimCodes_pad (core : List Nat) (h : ∀ c ∈ core, isJsWs c = false)
    (pre post : Nat) :
    trimCodes (List.replicate pre 32 ++ core ++ List.replicate post 32) = core := by
  unfold trimCodes
  rw [List.append_assoc, dropWhile_replicate_append isJsWs 32 (by decide)]
  cases core with
  | nil =>
      have h1 : (List.replicate post 32).dropWhile isJsWs = ([] : List Nat) := by
        have h2 := dropWhile_replicate_append isJsWs 32 (by decide) post
          ([] : List Nat)
        simpa using h2
      simp [h1]
  | cons c rest =>
      rw [List.cons_append,
        List.dropWhile_cons_of_neg (by simp [h c (by simp)])]
      rw [show (c :: (rest ++ List.replicate post 32)) =
        (c :: rest) ++ List.replicate post 32 from rfl]
      rw [List.reverse_append, List.reverse_replicate,
        dropWhile_replicate_append isJsWs 32 (by decide)]
      rw [dropWhile_eq_self_of_all isJsWs (c :: rest).reverse
        (fun d hd => h d (List.mem_reverse.mp hd))]
      exact List.reverse_reverse _

theorem encodeB64_eq_unpadded_append : ∀ s : List Nat,
    encodeB64 s = encodeB64Unpadded s ++ List.replicate (padCount s) 61
  | [] => rfl
  | [_] => rfl
  | [_, _] => rfl
  | a :: b :: c :: rest => by
      have ih := encodeB64_eq_unpadded_append rest
      have hm : (rest.length + 3) % 3 = rest.length % 3 := Nat.add_mod_right _ _
      have hpc : padCount (a :: b :: c :: rest) = padCount rest := by
        simp only [padCount, List.length_cons]
        split_ifs <;> omega
      simp only [encodeB64, encodeB64Unpadded, hpc, ih, List.append_assoc,
        List.cons_append, List.nil_append]

theorem encodeB64_length_mod : ∀ s : List Nat, (encodeB64 s).length % 4 = 0
  | [] => rfl
  | [a] => by simp [encodeB64]
  | [a, b] => by simp [encodeB64]
  | _ :: _ :: _ :: rest => by
      have ih := encodeB64_length_mod rest
      simp only [encodeB64, List.length_append, List.cons_append,
        List.length_cons, List.nil_append, List.length_nil]
      omega

theorem encodeB64Unpadded_chars : ∀ (s : List Nat), (∀ b ∈ s, b < 256) →
    ∀ c ∈ encodeB64Unpadded s, ∃ n, n < 64 ∧ c = encodeB64Char n
  | [], _ => by simp [encodeB64Unpadded]
  | [a], h => by
      have ha : a < 256 := h a (by simp)
      intro c hc
      simp only [encodeB64Unpadded, List.mem_cons, List.not_mem_nil,
        or_false] at hc
      rcases hc with rfl | rfl
      · exact ⟨a / 4, by omega, rfl⟩
      · exact ⟨(a % 4) * 16, by omega, rfl⟩
  | [a, b], h => by
      have ha : a < 256 := h a (by simp)
      have hb : b < 256 := h b (by simp)
      intro c hc
      simp only [encodeB64Unpadded, List.mem_cons, List.not_mem_nil,
        or_false] at hc
      rcases hc with rfl | rfl | rfl
      · exact ⟨a / 4, by omega, rfl⟩
      · exact ⟨(a % 4) * 16 + b / 16, by omega, rfl⟩
      · exact ⟨(b % 16) * 4, by omega, rfl⟩
  | a :: b :: c :: rest, h => by
      have ha : a < 256 := h a (by simp)
      have hb : b < 256 := h b (by simp)
      have hc2 : c < 256 := h c (by simp)
      have ih := encodeB64Unpadded_chars rest (fun x hx => h x (by simp [hx]))
      intro d hd
      simp only [encodeB64Unpadded, List.cons_append, List.nil_append,
        List.mem_cons, List.mem_append] at hd
      rcases hd with rfl | rfl | rfl | rfl | hd
      · exact ⟨a / 4, by omega, rfl⟩
      · exact ⟨(a % 4) * 16 + b / 16, by omega, rfl⟩
      · exact ⟨(b % 16) * 4 + c / 64, by omega, rfl⟩
      · exact ⟨c % 64, by omega, rfl⟩
      · exact ih d hd

theorem encUnpadded_facts (s : List Nat) (hs : ∀ b ∈ s, b < 256) :
    ∀ c ∈ encodeB64Unpadded s,
      c ≠ 61 ∧ c ≠ 45 ∧ c ≠ 95 ∧ isJsWs c = false ∧ isAsciiWs c = false := by
  intro c hc
  obtain ⟨n, hn, rfl⟩ := encodeB64Unpadded_chars s hs c hc
  have hp := b64Char_props n hn
  exact ⟨hp.2.1, hp.2.2.1, hp.2.2.2.1, hp.2.2.2.2.1, hp.2.2.2.2.2⟩

theorem removeB64Padding_append (u : List Nat) (p : Nat)
    (hu : ∀ c ∈ u, c ≠ 61) :
    removeB64Padding (u ++ List.replicate p 61) = u := by
  unfold removeB64Padding
  rw [List.reverse_append, List.reverse_replicate,
    dropWhile_replicate_append _ 61 (by simp) p u.reverse]
  rw [dropWhile_eq_self_of_all _ u.reverse
    (fun c hc => by simp [hu c (List.mem_reverse.mp hc)])]
  exact List.reverse_reverse u

theorem padCount_le_two (s : List Nat) : padCount s ≤ 2 := by
  unfold padCount
  split <;> [omega; split <;> omega]

theorem stripPadding_append (u : List Nat) (p : Nat) (hu : ∀ c ∈ u, c ≠ 61)
    (hp : p ≤ 2) (hlen : (u.length + p) % 4 = 0) :
    stripPadding (u ++ List.replicate p 61) = u := by
  unfold stripPadding
  rw [if_pos (by simp only [List.length_append, List.length_replicate]; omega)]
  rw [List.reverse_append, List.reverse_replicate]
  interval_cases p
  · cases hur : u.reverse with
    | nil =>
        have : u = [] := by simpa using congrArg List.reverse hur
        simp [this]
    | cons c1 tl =>
        have hc1 : c1 ≠ 61 :=
          hu c1 (List.mem_reverse.mp (by rw [hur]; exact List.mem_cons_self _ _))
        cases tl with
        | nil => simp [hur, hc1]
        | cons c2 tl2 => simp [hur, hc1]
  · cases hur : u.reverse with
    | nil =>
        have hu2 : u = [] := by simpa using congrArg List.reverse hur
        simp [hur, hu2]
    | cons c2 tl =>
        have hc2 : c2 ≠ 61 :=
          hu c2 (List.mem_reverse.mp (by rw [hur]; exact List.mem_cons_self _ _))
        simp only [List.replicate, List.cons_append, List.nil_append, hur]
        simp [hc2, ← hur]
  · simp only [List.replicate, List.cons_append, List.nil_append]
    simp [List.reverse_reverse]

theorem decodeGroups_encode : ∀ (s : List Nat), (∀ b ∈ s, b < 256) →
    decodeGroups (encodeB64Unpadded s) = some s
  | [], _ => rfl
  | [a], h => by
      have ha : a < 256 := h a (by simp)
      have h1 := (b64Char_props (a / 4) (by omega)).1
      have h2 := (b64Char_props ((a % 4) * 16) (by omega)).1
      simp only [encodeB64Unpadded, decodeGroups, h1, h2, Option.bind_eq_bind,
        Option.some_bind, Option.pure_def, Option.some.injEq, List.cons.injEq,
        and_true]
      omega
  | [a, b], h => by
      have ha : a < 256 := h a (by simp)
      have hb : b < 256 := h b (by simp)
      have h1 := (b64Char_props (a / 4) (by omega)).1
      have h2 := (b64Char_props ((a % 4) * 16 + b / 16) (by omega)).1
      have h3 := (b64Char_props ((b % 16) * 4) (by omega)).1
      simp only [encodeB64Unpadded, decodeGroups, h1, h2, h3,
        Option.bind_eq_bind, Option.some_bind, Option.pure_def,
        Option.some.injEq, List.cons.injEq, and_true]
      omega
  | a :: b :: c :: rest, h => by
      have ha : a < 256 := h a (by simp)
      have hb : b < 256 := h b (by simp)
      have hc : c < 256 := h c (by simp)
      have ih := decodeGroups_encode rest (fun x hx => h x (by simp [hx]))
      have h1 := (b64Char_props (a / 4) (by omega)).1
      have h2 := (b64Char_props ((a % 4) * 16 + b / 16) (by omega)).1
      have h3 := (b64Char_props ((b % 16) * 4 + c / 64) (by omega)).1
      have h4 := (b64Char_props (c % 64) (by omega)).1
      simp only [encodeB64Unpadded, List.cons_append, List.nil_append]
      simp only [decodeGroups, h1, h2, h3, h4, ih, Option.bind_eq_bind,
        Option.some_bind, Option.pure_def, Option.some.injEq]
      simp only [List.cons_append, List.nil_append, List.cons.injEq, and_true]
      omega

theorem atobModel_encode (s : List Nat) (hs : ∀ b ∈ s, b < 256) :
    atobModel (encodeB64 s) = some s := by
  have hdec := encodeB64_eq_unpadded_append s
  have hfacts := encUnpadded_facts s hs
  have hfil : (encodeB64 s).filter (fun c => !isAsciiWs c) = encodeB64 s := by
    apply List.filter_eq_self.mpr
    intro c hc
    rw [hdec] at hc
    rcases List.mem_append.mp hc with h1 | h2
    · simp [(hfacts c h1).2.2.2.2]
    · have h61 : c = 61 := List.eq_of_mem_replicate h2
      subst h61; decide
  have hstrip : stripPadding (encodeB64 s) = encodeB64Unpadded s := by
    rw [hdec]
    refine stripPadding_append _ _ (fun c hc => (hfacts c hc).1)
      (padCount_le_two s) ?_
    have hlen := encodeB64_length_mod s
    rw [hdec] at hlen
    simpa [List.length_append, List.length_replicate] using hlen
  have hmod : ¬ (encodeB64Unpadded s).length % 4 = 1 := by
    have hlen := encodeB64_length_mod s
    rw [hdec] at hlen
    have hp := padCount_le_two s
    simp only [List.length_append, List.length_replicate] at hlen
    omega
  simp only [atobModel, hfil, hstrip]
  rw [if_neg hmod]
  exact decodeGroups_encode s hs

theorem map_eq_self_of_all {α : Type} (f : α → α) (l : List α)
    (h : ∀ c ∈ l, f c = c) : l.map f = l := by
  induction l with
  | nil => rfl
  | cons c rest ih => simp [h c (by simp), ih (fun d hd => h d (by simp [hd]))]

theorem normChar_map_id (l : List Nat) (h : ∀ c ∈ l, c ≠ 45 ∧ c ≠ 95) :
    l.map normChar = l := by
  apply map_eq_self_of_all
  intro c hc
  simp [normChar, (h c hc).1, (h c hc).2]

theorem normChar_toUrlSafe (l : List Nat) (h : ∀ c ∈ l, c ≠ 45 ∧ c ≠ 95) :
    (toUrlSafe l).map normChar = l := by
  unfold toUrlSafe
  rw [List.map_map]
  apply map_eq_self_of_all
  intro c hc
  by_cases h43 : c = 43
  · simp [h43, normChar]
  · by_cases h47 : c = 47
    · simp [h47, normChar]
    · simp [Function.comp, h43, h47, normChar, (h c hc).1, (h c hc).2]

theorem toUrlSafe_no_ws (l : List Nat) (h : ∀ c ∈ l, isJsWs c = false) :
    ∀ c ∈ toUrlSafe l, isJsWs c = false := by
  intro c hc
  obtain ⟨d, hd, rfl⟩ := List.mem_map.1 hc
  by_cases h43 : d = 43
  · simp [h43]; decide
  · by_cases h47 : d = 47
    · simp [h43, h47]; decide
    · simpa [h43, h47] using h d hd

theorem encodeB64Unpadded_length_ge : ∀ s : List Nat, s ≠ [] →
    2 ≤ (encodeB64Unpadded s).length
  | [], h => absurd rfl h
  | [_], _ => by simp [encodeB64Unpadded]
  | [_, _], _ => by simp [encodeB64Unpadded]
  | _ :: _ :: _ :: rest, _ => by
      simp [encodeB64Unpadded, List.length_append]

theorem decodeBase64_encode_core (s : List Nat) (hs : ∀ b ∈ s, b < 256)
    (hne : s ≠ []) (p : Nat) (hp : p ≤ padCount s) (core : List Nat)
    (hcore : core = encodeB64Unpadded s ++ List.replicate p 61
        ∨ core = toUrlSafe (encodeB64Unpadded s ++ List.replicate p 61))
    (pre post : Nat) :
    decodeBase64 (List.replicate pre 32 ++ core ++ List.replicate post 32) = s := by
  have hchars : ∀ c ∈ encodeB64Unpadded s ++ List.replicate p 61,
      c ≠ 45 ∧ c ≠ 95 ∧ isJsWs c = false := by
    intro c hc
    rcases List.mem_append.mp hc with h1 | h2
    · have hf := encUnpadded_facts s hs c h1
      exact ⟨hf.2.1, hf.2.2.1, hf.2.2.2.1⟩
    · have h61 : c = 61 := List.eq_of_mem_replicate h2
      subst h61
      exact ⟨by decide, by decide, by decide⟩
  have hcore_ws : ∀ c ∈ core, isJsWs c = false := by
    rcases hcore with rfl | rfl
    · exact fun c hc => (hchars c hc).2.2
    · exact toUrlSafe_no_ws _ (fun c hc => (hchars c hc).2.2)
  have hulen : 2 ≤ (encodeB64Unpadded s).length := encodeB64Unpadded_length_ge s hne
  have hcorelen : core.length = (encodeB64Unpadded s).length + p := by
    rcases hcore with rfl | rfl
    · simp [List.length_append]
    · simp [toUrlSafe, List.length_append]
  have hcorenil : core ≠ [] := by
    intro h
    rw [h] at hcorelen
    simp only [List.length_nil] at hcorelen
    omega
  have htrim := trimCodes_pad core hcore_ws pre post
  have hnorm : normalizedOf core = encodeB64 s := by
    unfold normalizedOf
    have hfil : core.filter (fun c => !isJsWs c) = core :=
      List.filter_eq_self.mpr (fun c hc => by simp [hcore_ws c hc])
    rw [hfil]
    have hmap : core.map normChar
        = encodeB64Unpadded s ++ List.replicate p 61 := by
      rcases hcore with rfl | rfl
      · exact normChar_map_id _
          (fun c hc => ⟨(hchars c hc).1, (hchars c hc).2.1⟩)
      · exact normChar_toUrlSafe _
          (fun c hc => ⟨(hchars c hc).1, (hchars c hc).2.1⟩)
    rw [hmap, hcorelen]
    have hLmod := encodeB64_length_mod s
    have hdec := encodeB64_eq_unpadded_append s
    have hLlen : (encodeB64 s).length
        = (encodeB64Unpadded s).length + padCount s := by
      rw [hdec]
      simp [List.length_append]
    have hpcle := padCount_le_two s
    have htarget : ((encodeB64Unpadded s).length + p + 3) / 4 * 4
        = (encodeB64Unpadded s).length + padCount s := by omega
    unfold padEnd
    have hlen2 : (encodeB64Unpadded s ++ List.replicate p 61).length
        = (encodeB64Unpadded s).length + p := by
      simp [List.length_append]
    rw [hlen2, htarget, List.append_assoc, ← List.replicate_add]
    rw [show p + ((encodeB64Unpadded s).length + padCount s
        - ((encodeB64Unpadded s).length + p)) = padCount s by omega]
    exact hdec.symm
  unfold decodeBase64
  rw [htrim, if_neg hcorenil, hnorm, atobModel_encode s hs]

/-- C10.  `decodeBase64` is total by construction, returns the empty string on
empty (or whitespace-only) input and on any input the `atob` model rejects,
and round-trips: for every byte string, decoding its base64 encoding — in
standard or URL-safe form, with or without padding, with or without
surrounding whitespace — returns the original bytes. -/
theorem decodeBase64_spec (s : List Nat) (urlSafe stripPad : Bool)
    (pre post : Nat) (hs : ∀ b ∈ s, b < 256) :
    decodeBase64 (mkVariant s urlSafe stripPad pre post) = s
    ∧ decodeBase64 [] = []
    ∧ (∀ raw, trimCodes raw = [] → decodeBase64 raw = [])
    ∧ (∀ raw, atobModel (normalizedOf (trimCodes raw)) = Option.none →
        decodeBase64 raw = []) := by
  refine ⟨?_, rfl, ?_, ?_⟩
  · by_cases hne : s = []
    · subst hne
      have hv : mkVariant [] urlSafe stripPad pre post
          = List.replicate pre 32 ++ ([] : List Nat) ++ List.replicate post 32 := by
        cases stripPad <;> cases urlSafe <;> rfl
      have htrim0 := trimCodes_pad ([] : List Nat) (by simp) pre post
      rw [hv]
      unfold decodeBase64
      rw [if_pos htrim0]
    · cases stripPad with
      | false =>
          cases urlSafe with
          | false =>
              have h := decodeBase64_encode_core s hs hne (padCount s) le_rfl
                (encodeB64 s) (Or.inl (encodeB64_eq_unpadded_append s)) pre post
              simpa [mkVariant] using h
          | true =>
              have h := decodeBase64_encode_core s hs hne (padCount s) le_rfl
                (toUrlSafe (encodeB64 s))
                (Or.inr (by rw [encodeB64_eq_unpadded_append s])) pre post
              simpa [mkVariant] using h
      | true =>
          have hrm : removeB64Padding (encodeB64 s) = encodeB64Unpadded s := by
            rw [encodeB64_eq_unpadded_append s]
            exact removeB64Padding_append _ _
              (fun c hc => (encUnpadded_facts s hs c hc).1)
          cases urlSafe with
          | false =>
              have h := decodeBase64_encode_core s hs hne 0 (Nat.zero_le _)
                (encodeB64Unpadded s) (Or.inl (by simp)) pre post
              simpa [mkVariant, hrm] using h
          | true =>
              have h := decodeBase64_encode_core s hs hne 0 (Nat.zero_le _)
                (toUrlSafe (encodeB64Unpadded s)) (Or.inr (by simp)) pre post
              simpa [mkVariant, hrm] using h
  · intro raw h
    unfold decodeBase64
    rw [if_pos h]
  · intro raw h
    unfold decodeBase64
    by_cases ht : trimCodes raw = []
    · rw [if_pos ht]
    · rw [if_neg ht, h]

/-- Witness for C10 at the bytes of "Hola" ([72, 111, 108, 97], base64
"SG9sYQ=="): the URL-safe unpadded space-surrounded form decodes back, as
does the plain padded form, whose character codes are listed explicitly. -/
theorem decodeBase64_spec_witness :
    decodeBase64 (mkVariant [72, 111, 108, 97] true true 1 2)
      = [72, 111, 108, 97]
    ∧ decodeBase64 (mkVariant [72, 111, 108, 97] false false 0 0)
      = [72, 111, 108, 97]
    ∧ mkVariant [72, 111, 108, 97] false false 0 0
      = [83, 71, 57, 115, 89, 81, 61, 61] := by
  refine ⟨(decodeBase64_spec [72, 111, 108, 97] true true 1 2 (by decide)).1,
    (decodeBase64_spec [72, 111, 108, 97] false false 0 0 (by decide)).1,
    by decide⟩

end HHR
